import Mathlib

/-!
The pagerduty-operator: the helpers of `pkg/utils/utils.go` and the heartbeat of `main.go`.

A shallow embedding of the finalizer utility, the cleanup helpers, the cluster
identity resolver and the heartbeat runnable, followed by the properties proved
about them.

Conventions of the embedding:
* a Go `string` is a Lean `String`; Go compares strings byte by byte, which on
  valid UTF-8 is the order of the code points, so comparison goes through the
  list of code points (`stringBytes`);
* a Go slice is the list of its elements (a nil slice and an empty slice are
  both `[]`);
* a method that mutates its receiver returns the new value.
-/

/-! ## Strings and their order (Go `<` on strings, used by `sort.Strings`) -/

/-- Lexicographic "less than" on sequences of code units. -/
def bytesLess : List Nat → List Nat → Bool
  | _, [] => false
  | [], _ :: _ => true
  | a :: as, b :: bs => a < b || (a == b && bytesLess as bs)

/-- The code units of a string. -/
def stringBytes (s : String) : List Nat := s.data.map Char.toNat

/-- Go `a < b` on strings. -/
def stringLess (a b : String) : Bool := bytesLess (stringBytes a) (stringBytes b)

/-- Go `a <= b` on strings, as a relation. -/
def stringLE (a b : String) : Prop := stringLess b a = false

/-- Go `a < b` on strings, as a relation. -/
def stringLT (a b : String) : Prop := stringLess a b = true

instance stringLE.decidable : DecidableRel stringLE :=
  fun a b => inferInstanceAs (Decidable (stringLess b a = false))

instance stringLT.decidable : DecidableRel stringLT :=
  fun a b => inferInstanceAs (Decidable (stringLess a b = true))

/-! ## `k8s.io/apimachinery/pkg/util/sets`: the string set

`sets.String` is `map[string]Empty`: a finite set of keys. It is represented by
the duplicate-free list of its keys; `List` sorts them, so the result does not
depend on the order in which the keys are kept. -/

/-- Alias used where the name `String` is taken by the set type. -/
abbrev GoString := String

/-- The type `sets.String`, a set of strings. -/
structure sets.String where
  keys : List GoString
deriving Repr, DecidableEq

/-- Method `Has`: whether the item is a key of the set. -/
def sets.String.Has (s : sets.String) (item : GoString) : Bool :=
  decide (item ∈ s.keys)

/-- Method `Insert` for one item: `s[item] = Empty{}`. -/
def sets.String.Insert (s : sets.String) (item : GoString) : sets.String :=
  if item ∈ s.keys then s else ⟨s.keys ++ [item]⟩

/-- Method `Delete` for one item: `delete(s, item)`. -/
def sets.String.Delete (s : sets.String) (item : GoString) : sets.String :=
  ⟨s.keys.filter (fun k => decide (k ≠ item))⟩

/-- Function `NewString`: the empty set with every item inserted in turn. -/
def sets.NewString (items : List GoString) : sets.String :=
  items.foldl sets.String.Insert ⟨[]⟩

/-- Method `List`: the keys, sorted with `sort.Strings`. -/
def sets.String.List (s : sets.String) : List GoString :=
  s.keys.insertionSort stringLE

/-! ## Objects -/

/-- Go `map[string]string`; `none` is the nil map. A key is bound to the value
of its first entry. -/
abbrev GoMap := Option (List (String × String))

/-- Go `val, ok := m[key]`: the zero value and `false` when the key is absent. -/
def GoMap.index (m : GoMap) (key : String) : String × Bool :=
  match m with
  | none => ("", false)
  | some kvs =>
    match kvs.lookup key with
    | some v => (v, true)
    | none => ("", false)

/-- The part of `metav1.ObjectMeta` the helpers read or write. -/
structure ObjectMeta where
  Name : String
  Namespace : String
  Labels : GoMap
  Finalizers : List String
deriving Repr, DecidableEq

/-- Method `GetFinalizers` of `metav1.Object`. -/
def ObjectMeta.GetFinalizers (object : ObjectMeta) : List String := object.Finalizers

/-- Method `SetFinalizers` of `metav1.Object`. -/
def ObjectMeta.SetFinalizers (object : ObjectMeta) (finalizers : List String) : ObjectMeta :=
  { object with Finalizers := finalizers }

/-! ## Finalizer utility -/

/-- HasFinalizer returns true if the given object has the given finalizer. -/
def HasFinalizer (object : ObjectMeta) (finalizer : String) : Bool :=
  let finalizers := sets.NewString object.GetFinalizers
  finalizers.Has finalizer

/-- AddFinalizer adds a finalizer to the given object. -/
def AddFinalizer (object : ObjectMeta) (finalizer : String) : ObjectMeta :=
  let finalizers := sets.NewString object.GetFinalizers
  let finalizers := finalizers.Insert finalizer
  object.SetFinalizers finalizers.List

/-- DeleteFinalizer removes a finalizer from the given object. -/
def DeleteFinalizer (object : ObjectMeta) (finalizer : String) : ObjectMeta :=
  let finalizers := sets.NewString object.GetFinalizers
  let finalizers := finalizers.Delete finalizer
  object.SetFinalizers finalizers.List

/-! ## Cleanup helpers

The helpers talk to the API server through `client.Client` and write to a
logger. Both are state: a helper takes the world before the call and returns
the world after it together with its `error` result (`none` is `nil`). The
world also keeps the trace of the client calls that were issued.

`errors.IsNotFound` belongs to `k8s.io/apimachinery`: it is a parameter
`IsNotFound` of each helper, as is the type `ε` of errors. -/

/-- The kinds of object the helpers delete. -/
inductive ObjectKind where
  | ConfigMap
  | SyncSet
  | Secret
deriving Repr, DecidableEq

/-- The type `types.NamespacedName`. -/
structure NamespacedName where
  Namespace : String
  Name : String
deriving Repr, DecidableEq

/-- A typed API object (`v1.ConfigMap`, `hivev1.SyncSet`, `v1.Secret`). -/
structure Object where
  Kind : ObjectKind
  Namespace : String
  Name : String
  Data : List (String × String)
deriving Repr, DecidableEq

/-- The zero value `&T{}` of a kind. -/
def Object.empty (kind : ObjectKind) : Object := ⟨kind, "", "", []⟩

/-- The two methods of `client.Client` the helpers use, over a state `σ` that stands
for everything behind the client. `Get` fills the object it is given; `Delete` takes
the object to delete. -/
structure Client (σ ε : Type) where
  Get : σ → NamespacedName → Object → σ × Object × Option ε
  Delete : σ → Object → σ × Option ε

/-- One call issued to the client. -/
inductive Call where
  | Get (key : NamespacedName) (obj : Object)
  | Delete (obj : Object)
deriving Repr, DecidableEq

/-- One entry written with `reqLogger.Info`: the message and its key/value pairs. -/
structure LogEntry where
  msg : String
  keysAndValues : List (String × String)
deriving Repr, DecidableEq

/-- The world a helper runs in. -/
structure World (σ : Type) where
  state : σ
  calls : List Call
  log : List LogEntry

/-- A call of `client.Get(ctx, key, obj)`, recorded in the trace. -/
def Client.get {σ ε : Type} (client : Client σ ε) (w : World σ) (key : NamespacedName)
    (obj : Object) : World σ × Object × Option ε :=
  let r := client.Get w.state key obj
  ({ w with state := r.1, calls := w.calls ++ [Call.Get key obj] }, r.2.1, r.2.2)

/-- A call of `client.Delete(ctx, obj)`, recorded in the trace. -/
def Client.delete {σ ε : Type} (client : Client σ ε) (w : World σ) (obj : Object) :
    World σ × Option ε :=
  let r := client.Delete w.state obj
  ({ w with state := r.1, calls := w.calls ++ [Call.Delete obj] }, r.2)

/-- A call of `reqLogger.Info(msg, keysAndValues...)`. -/
def World.Info {σ : Type} (w : World σ) (msg : String) (keysAndValues : List (String × String)) :
    World σ :=
  { w with log := w.log ++ [⟨msg, keysAndValues⟩] }

/-- DeleteConfigMap deletes a ConfigMap. -/
def DeleteConfigMap {σ ε : Type} (IsNotFound : ε → Bool) (name : String) (namespace_ : String)
    (client : Client σ ε) (w : World σ) : World σ × Option ε :=
  let configmap := Object.empty ObjectKind.ConfigMap
  match client.get w ⟨namespace_, name⟩ configmap with
  | (w, _, some err) =>
    if IsNotFound err then
      -- Request object not found: return and don't requeue
      (w, none)
    else
      -- Error finding the object, requeue
      (w, some err)
  | (w, configmap, none) =>
    let w := w.Info "Deleting ConfigMap"
      [("ClusterDeployment.Namespace", namespace_), ("Name", name)]
    match client.delete w configmap with
    | (w, some err) =>
      if IsNotFound err then
        (w, none)
      else
        (w, some err)
    | (w, none) => (w, none)

/-- DeleteSyncSet deletes a SyncSet. -/
def DeleteSyncSet {σ ε : Type} (IsNotFound : ε → Bool) (name : String) (namespace_ : String)
    (client : Client σ ε) (w : World σ) : World σ × Option ε :=
  let syncset := Object.empty ObjectKind.SyncSet
  match client.get w ⟨namespace_, name⟩ syncset with
  | (w, _, some err) =>
    if IsNotFound err then
      (w, none)
    else
      -- Error finding the syncset, requeue
      (w, some err)
  | (w, syncset, none) =>
    -- Only delete the syncset, this is just cleanup of the synced secret.
    let w := w.Info "Deleting SyncSet"
      [("ClusterDeployment.Namespace", namespace_), ("Name", name)]
    match client.delete w syncset with
    | (w, some err) =>
      if IsNotFound err then
        (w, none)
      else
        (w, some err)
    | (w, none) => (w, none)

/-- DeleteSecret deletes a Secret. -/
def DeleteSecret {σ ε : Type} (IsNotFound : ε → Bool) (name : String) (namespace_ : String)
    (client : Client σ ε) (w : World σ) : World σ × Option ε :=
  let secret := Object.empty ObjectKind.Secret
  match client.get w ⟨namespace_, name⟩ secret with
  | (w, _, some err) =>
    if IsNotFound err then
      (w, none)
    else
      -- Error finding the secret, requeue
      (w, some err)
  | (w, secret, none) =>
    let w := w.Info "Deleting Secret"
      [("ClusterDeployment.Namespace", namespace_), ("Name", name)]
    match client.delete w secret with
    | (w, some err) =>
      if IsNotFound err then
        (w, none)
      else
        (w, some err)
    | (w, none) => (w, none)

/-! ### A client that acts faithfully on a store

The store maps (kind, namespace, name) to objects: it is the list of the objects
it holds, an object being found under its own kind, namespace and name. -/

/-- The store behind the faithful client. -/
abbrev Store := List Object

/-- The errors of the faithful client. -/
inductive StoreError where
  | NotFound (kind : ObjectKind) (key : NamespacedName)
  | Internal (msg : String)
deriving Repr, DecidableEq

/-- The classification `errors.IsNotFound` on the errors of the faithful client. -/
def StoreError.IsNotFound : StoreError → Bool
  | .NotFound _ _ => true
  | .Internal _ => false

/-- Whether an object is the entry for a kind, namespace and name. -/
def Object.hasKey (o : Object) (kind : ObjectKind) (key : NamespacedName) : Bool :=
  decide (o.Kind = kind) && decide (o.Namespace = key.Namespace) && decide (o.Name = key.Name)

/-- The entry of the store for a kind, namespace and name. -/
def Store.lookup (s : Store) (kind : ObjectKind) (key : NamespacedName) : Option Object :=
  s.find? (fun o => o.hasKey kind key)

/-- The store without the entry for a kind, namespace and name. -/
def Store.remove (s : Store) (kind : ObjectKind) (key : NamespacedName) : Store :=
  s.filter (fun o => !o.hasKey kind key)

/-- The faithful client: `Get` reads the entry of the requested key and of the kind of
the object passed in, or reports not-found; `Delete` removes the entry of the object,
or reports not-found. -/
def storeClient : Client Store StoreError where
  Get := fun s key obj =>
    match s.lookup obj.Kind key with
    | some o => (s, o, none)
    | none => (s, obj, some (StoreError.NotFound obj.Kind key))
  Delete := fun s obj =>
    match s.lookup obj.Kind ⟨obj.Namespace, obj.Name⟩ with
    | some _ => (s.remove obj.Kind ⟨obj.Namespace, obj.Name⟩, none)
    | none => (s, some (StoreError.NotFound obj.Kind ⟨obj.Namespace, obj.Name⟩))

/-- A client whose every call fails with the same error. -/
def failingClient (err : StoreError) : Client Store StoreError where
  Get := fun s _ obj => (s, obj, some err)
  Delete := fun s _ => (s, some err)

/-- A world with nothing issued or logged yet. -/
def World.init {σ : Type} (s : σ) : World σ := ⟨s, [], []⟩

/-! ## Cluster identity resolver -/

/-- Go `strings.Split(s, sep)` for a separator of one character, on the characters of
`s`: the segments between the occurrences of `sep`, in order. -/
def splitChars (sep : Char) : List Char → List (List Char)
  | [] => [[]]
  | c :: cs =>
    if c = sep then [] :: splitChars sep cs
    else
      match splitChars sep cs with
      | [] => [[c]]
      | seg :: segs => (c :: seg) :: segs

/-- Go `strings.Split(s, "-")` and the like. -/
def strings.Split (s : String) (sep : Char) : List String :=
  (splitChars sep s.data).map String.mk

/-- Go `xs[i]` on a slice: `none` is the run-time panic "index out of range". -/
def sliceIndex {α : Type} (xs : List α) (i : Int) : Option α :=
  if 0 ≤ i ∧ i < (xs.length : Int) then xs.get? i.toNat else none

/-- The part of `hivev1.ClusterDeploymentSpec` the helpers read. -/
structure ClusterDeploymentSpec where
  ClusterName : String
deriving Repr, DecidableEq

/-- The type `hivev1.ClusterDeployment`. -/
structure ClusterDeployment extends ObjectMeta where
  Spec : ClusterDeploymentSpec
deriving Repr, DecidableEq

/-- GetClusterID; `isFedramp` is the value of `config.IsFedramp()`, the process-wide
flag set once at startup. The result is `none` if indexing panics. -/
def GetClusterID (isFedramp : Bool) (cd : ClusterDeployment) : Option String :=
  if isFedramp then
    let cns := strings.Split cd.Namespace '-'
    sliceIndex cns ((cns.length : Int) - 1)
  else
    some cd.Spec.ClusterName

/-- IsRedHatInfrastructure returns whether or not a cluster is part of the Red Hat
infrastructure. -/
def IsRedHatInfrastructure (cd : ClusterDeployment) : Bool :=
  -- clusterRHInfraLabel is the annotation key for Red Hat infrastructure clusters
  let clusterRHInfraLabel := "ext-pagerduty.openshift.io/rh-infra"
  let (val, ok) := cd.Labels.index clusterRHInfraLabel
  if ok && val == "true" then
    true
  else
    false

/-! ## Slice helper -/

/-- Contains returns true if a slice contains a string, otherwise false. -/
def Contains : List String → String → Bool
  | [], _ => false
  | v :: s, str => if v == str then true else Contains s str

/-! ## The heartbeat runnable of `main.go`

The function literal that `main` registers with `mgr.Add`. The constants of package
`config` and the function `localmetrics.UpdateAPIMetrics` are not among the sources: the
constants are the parameter `cfg`, and `UpdateAPIMetrics` is a parameter acting on the
state `μ` of the metrics (the timer it is handed is part of that state). -/

/-- The constants of package `config` read by the heartbeat. -/
structure OperatorConfig where
  OperatorNamespace : String
  PagerDutyAPISecretName : String
  PagerDutyAPISecretKey : String
deriving Repr, DecidableEq

/-- The world of the heartbeat: the world of the client, the entries written with
`setupLog.Error` (the error and the message) and the state of the metrics. -/
structure HeartbeatWorld (σ ε μ : Type) where
  client : World σ
  errors : List (ε × String)
  metrics : μ

/-- The runnable added to the manager ("Add runnable custom metrics"); its result is the
`error` it returns to the manager. -/
def heartbeatRunnable {σ ε μ : Type} (cfg : OperatorConfig) (client : Client σ ε)
    (UpdateAPIMetrics : String → μ → μ) (h : HeartbeatWorld σ ε μ) :
    HeartbeatWorld σ ε μ × Option ε :=
  let pdAPISecret := Object.empty ObjectKind.Secret
  match client.get h.client ⟨cfg.OperatorNamespace, cfg.PagerDutyAPISecretName⟩ pdAPISecret with
  | (w, _, some err) =>
    ({ h with client := w, errors := h.errors ++ [(err, "Failed to get secret")] }, some err)
  | (w, pdAPISecret, none) =>
    let APIKey := (GoMap.index (some pdAPISecret.Data) cfg.PagerDutyAPISecretKey).1
    ({ h with client := w, metrics := UpdateAPIMetrics APIKey h.metrics }, none)

/-! ## The creation path of the integration reconciler

The reconciler (`controllers/pagerdutyintegration`) is not among the sources; `main.go`
only registers it. Its creation path is modelled from sections 3, 4.4 and 8 of the
specification. -/

/-- Modelled from the spec: the state the creation path of the missing reconciler acts on.
`records` are the external integration records created so far, each named by the cluster
identifier that keys it; `resource` is the custom resource as persisted in the store. -/
structure ReconcileState where
  records : List String
  resource : ObjectMeta
deriving Repr, DecidableEq

/-- Modelled from the spec: how the two fallible steps of one attempt of the missing
reconciler turn out, the call that creates the external record and the write that persists
the finalizer. -/
structure AttemptOutcome where
  createSucceeds : Bool
  persistSucceeds : Bool
deriving Repr, DecidableEq

/-- Modelled from the spec: the last step of an attempt of the missing reconciler. The
finalizer is added to the resource and the resource is written back; when the write fails
the persisted resource stays as it was and the attempt is requeued (`false`). -/
def persistFinalizer (finalizer : String) (st : ReconcileState) (o : AttemptOutcome) :
    ReconcileState × Bool :=
  if o.persistSucceeds then
    ({ st with resource := AddFinalizer st.resource finalizer }, true)
  else
    (st, false)

/-- Modelled from the spec: one attempt of the missing reconciler on a resource that is being
created (PendingCreate to Active). The external record is looked up by the deterministic
cluster identifier; a record found is treated as existing, otherwise the external API is
called once to create it, and a failed call adds no finalizer and stores nothing. The
`Bool` says whether the attempt completed (`false`: requeue). -/
def reconcileCreate (isFedramp : Bool) (cd : ClusterDeployment) (finalizer : String)
    (st : ReconcileState) (o : AttemptOutcome) : ReconcileState × Bool :=
  match GetClusterID isFedramp cd with
  | none => (st, false)
  | some clusterID =>
    if clusterID ∈ st.records then
      persistFinalizer finalizer st o
    else if o.createSucceeds then
      persistFinalizer finalizer { st with records := st.records ++ [clusterID] } o
    else
      (st, false)

/-- Modelled from the spec: a sequence of attempts of the missing reconciler on one resource,
each starting from the state the one before left (level-based reconciliation). -/
def reconcileAttempts (isFedramp : Bool) (cd : ClusterDeployment) (finalizer : String) :
    ReconcileState → List AttemptOutcome → ReconcileState
  | st, [] => st
  | st, o :: os =>
    reconcileAttempts isFedramp cd finalizer (reconcileCreate isFedramp cd finalizer st o).1 os

/-! # Properties -/

/-! ## The order on strings -/

theorem bytesLess_irrefl (a : List Nat) : bytesLess a a = false := by
  induction a with
  | nil => rfl
  | cons x xs ih => simp [bytesLess, ih]

theorem bytesLess_asymm : ∀ a b : List Nat, bytesLess a b = true → bytesLess b a = false
  | _, [] => by simp [bytesLess]
  | [], _ :: _ => by simp [bytesLess]
  | a :: as, b :: bs => by
    intro h
    simp only [bytesLess, Bool.or_eq_true, Bool.and_eq_true, decide_eq_true_eq, beq_iff_eq] at h
    simp only [bytesLess, Bool.or_eq_false_iff, decide_eq_false_iff_not, Bool.and_eq_false_imp,
      beq_iff_eq]
    rcases h with h | ⟨h1, h2⟩
    · exact ⟨by omega, fun h3 => by omega⟩
    · exact ⟨by omega, fun _ => bytesLess_asymm as bs h2⟩

theorem bytesLess_trans : ∀ a b c : List Nat,
    bytesLess a b = true → bytesLess b c = true → bytesLess a c = true
  | _, _, [] => by simp [bytesLess]
  | _, [], _ :: _ => by simp [bytesLess]
  | [], _ :: _, _ :: _ => by simp [bytesLess]
  | a :: as, b :: bs, c :: cs => by
    intro h1 h2
    simp only [bytesLess, Bool.or_eq_true, Bool.and_eq_true, decide_eq_true_eq, beq_iff_eq]
      at h1 h2 ⊢
    rcases h1 with h1 | ⟨h1, h1'⟩ <;> rcases h2 with h2 | ⟨h2, h2'⟩
    · left; omega
    · left; omega
    · left; omega
    · right; exact ⟨by omega, bytesLess_trans as bs cs h1' h2'⟩

theorem bytesLess_connex : ∀ a b : List Nat,
    bytesLess a b = false → bytesLess b a = false → a = b
  | [], [] => by simp
  | _ :: _, [] => by simp [bytesLess]
  | [], _ :: _ => by simp [bytesLess]
  | a :: as, b :: bs => by
    intro h1 h2
    simp only [bytesLess, Bool.or_eq_false_iff, decide_eq_false_iff_not, Bool.and_eq_false_imp,
      beq_iff_eq] at h1 h2
    have hab : a = b := by omega
    subst hab
    rw [bytesLess_connex as bs (h1.2 rfl) (h2.2 rfl)]

theorem stringBytes_injective : Function.Injective stringBytes := by
  intro a b h
  apply String.ext
  have hinj : Function.Injective Char.toNat := by
    intro c d hcd
    rw [← Char.ofNat_toNat c, ← Char.ofNat_toNat d, hcd]
  exact List.map_injective_iff.mpr hinj h

instance stringLE.isTotal : IsTotal String stringLE where
  total a b := by
    unfold stringLE stringLess
    cases h : bytesLess (stringBytes b) (stringBytes a)
    · exact Or.inl rfl
    · exact Or.inr (bytesLess_asymm _ _ h)

instance stringLE.isTrans : IsTrans String stringLE where
  trans a b c := by
    unfold stringLE stringLess
    intro h1 h2
    cases h : bytesLess (stringBytes c) (stringBytes a)
    · rfl
    · cases h3 : bytesLess (stringBytes a) (stringBytes b)
      · have := bytesLess_connex _ _ h3 h1
        rw [this] at h
        rw [h] at h2
        exact h2
      · have := bytesLess_trans _ _ _ h h3
        rw [this] at h2
        exact h2

instance stringLE.isAntisymm : IsAntisymm String stringLE where
  antisymm a b := by
    unfold stringLE stringLess
    intro h1 h2
    exact stringBytes_injective (bytesLess_connex _ _ h2 h1)

instance stringLT.isIrrefl : IsIrrefl String stringLT where
  irrefl a := by
    unfold stringLT stringLess
    rw [bytesLess_irrefl]
    simp

instance stringLT.isTrans : IsTrans String stringLT where
  trans a b c := by
    unfold stringLT stringLess
    exact bytesLess_trans _ _ _

theorem stringLT_iff (a b : String) : stringLT a b ↔ stringLE a b ∧ a ≠ b := by
  unfold stringLT stringLE stringLess
  constructor
  · intro h
    refine ⟨bytesLess_asymm _ _ h, ?_⟩
    rintro rfl
    rw [bytesLess_irrefl] at h
    exact Bool.noConfusion h
  · rintro ⟨h1, h2⟩
    cases h : bytesLess (stringBytes a) (stringBytes b)
    · exact absurd (stringBytes_injective (bytesLess_connex _ _ h h1)) h2
    · rfl

/-- A list sorted for `<=` and free of duplicates is sorted for `<`. -/
theorem sorted_stringLT_of_le {l : List String} (hs : l.Sorted stringLE) (hn : l.Nodup) :
    l.Sorted stringLT := by
  induction l with
  | nil => exact List.sorted_nil
  | cons x xs ih =>
    rw [List.sorted_cons] at hs ⊢
    rw [List.nodup_cons] at hn
    refine ⟨fun b hb => (stringLT_iff x b).mpr ⟨hs.1 b hb, ?_⟩, ih hs.2 hn.2⟩
    rintro rfl
    exact hn.1 hb

theorem sorted_stringLE_of_lt {l : List String} (hs : l.Sorted stringLT) :
    l.Sorted stringLE :=
  hs.imp (fun h => ((stringLT_iff _ _).mp h).1)

/-! ## The string set -/

theorem sets_foldl_Insert_keys (items : List String) :
    ∀ acc : List String, acc.Nodup →
      ((items.foldl sets.String.Insert ⟨acc⟩).keys.Nodup ∧
        ∀ x, x ∈ (items.foldl sets.String.Insert ⟨acc⟩).keys ↔ x ∈ acc ∨ x ∈ items) := by
  induction items with
  | nil => intro acc h; simp [h]
  | cons i is ih =>
    intro acc h
    simp only [List.foldl_cons]
    by_cases hi : i ∈ acc
    · have e : sets.String.Insert ⟨acc⟩ i = ⟨acc⟩ := by simp [sets.String.Insert, hi]
      rw [e]
      refine ⟨(ih acc h).1, fun x => ?_⟩
      rw [(ih acc h).2 x]
      simp only [List.mem_cons]
      constructor
      · rintro (h1 | h1)
        · exact Or.inl h1
        · exact Or.inr (Or.inr h1)
      · rintro (h1 | h1 | h1)
        · exact Or.inl h1
        · exact Or.inl (h1 ▸ hi)
        · exact Or.inr h1
    · have e : sets.String.Insert ⟨acc⟩ i = ⟨acc ++ [i]⟩ := by simp [sets.String.Insert, hi]
      rw [e]
      have hn : (acc ++ [i]).Nodup := by
        rw [List.nodup_append]
        refine ⟨h, List.nodup_singleton i, ?_⟩
        intro a ha hb
        rw [List.mem_singleton] at hb
        exact hi (hb ▸ ha)
      refine ⟨(ih _ hn).1, fun x => ?_⟩
      rw [(ih _ hn).2 x]
      simp only [List.mem_append, List.mem_singleton, List.mem_cons]
      tauto

theorem sets_NewString_nodup (items : List String) : (sets.NewString items).keys.Nodup :=
  (sets_foldl_Insert_keys items [] List.nodup_nil).1

theorem sets_mem_NewString (items : List String) (x : String) :
    x ∈ (sets.NewString items).keys ↔ x ∈ items := by
  have := (sets_foldl_Insert_keys items [] List.nodup_nil).2 x
  simpa [sets.NewString] using this

theorem sets_foldl_Insert_of_nodup (items : List String) :
    ∀ acc : List String, (acc ++ items).Nodup →
      items.foldl sets.String.Insert ⟨acc⟩ = ⟨acc ++ items⟩ := by
  induction items with
  | nil => intro acc _; simp
  | cons i is ih =>
    intro acc h
    have hi : i ∉ acc := by
      intro hmem
      rw [List.nodup_append] at h
      exact h.2.2 hmem (List.mem_cons_self i is)
    have e : sets.String.Insert ⟨acc⟩ i = ⟨acc ++ [i]⟩ := by simp [sets.String.Insert, hi]
    simp only [List.foldl_cons]
    rw [e, ih (acc ++ [i]) (by simpa using h)]
    simp

/-- On a duplicate-free list `NewString` keeps the items as they are. -/
theorem sets_NewString_of_nodup (items : List String) (h : items.Nodup) :
    sets.NewString items = ⟨items⟩ := by
  have := sets_foldl_Insert_of_nodup items [] (by simpa using h)
  simpa [sets.NewString] using this

theorem sets_Insert_nodup (s : sets.String) (m : String) (h : s.keys.Nodup) :
    (s.Insert m).keys.Nodup := by
  unfold sets.String.Insert
  split
  · exact h
  · rename_i hm
    rw [List.nodup_append]
    refine ⟨h, List.nodup_singleton m, ?_⟩
    intro a ha hb
    rw [List.mem_singleton] at hb
    exact hm (hb ▸ ha)

theorem sets_mem_Insert (s : sets.String) (m x : String) :
    x ∈ (s.Insert m).keys ↔ x = m ∨ x ∈ s.keys := by
  unfold sets.String.Insert
  split
  · rename_i hm
    constructor
    · exact Or.inr
    · rintro (rfl | h)
      · exact hm
      · exact h
  · simp only [List.mem_append, List.mem_singleton]
    tauto

theorem sets_Delete_nodup (s : sets.String) (m : String) (h : s.keys.Nodup) :
    (s.Delete m).keys.Nodup :=
  h.filter _

theorem sets_mem_Delete (s : sets.String) (m x : String) :
    x ∈ (s.Delete m).keys ↔ x ≠ m ∧ x ∈ s.keys := by
  simp [sets.String.Delete, and_comm]

theorem sets_mem_List (s : sets.String) (x : String) : x ∈ s.List ↔ x ∈ s.keys :=
  (List.perm_insertionSort stringLE s.keys).mem_iff

theorem sets_List_sorted (s : sets.String) (h : s.keys.Nodup) : s.List.Sorted stringLT :=
  sorted_stringLT_of_le (List.sorted_insertionSort stringLE s.keys)
    ((List.perm_insertionSort stringLE s.keys).nodup_iff.mpr h)

theorem sets_List_of_sorted (l : List String) (h : l.Sorted stringLT) :
    (sets.String.mk l).List = l :=
  (sorted_stringLE_of_lt h).insertionSort_eq

/-! ## Finalizer utility: the stored list -/

instance stringLT.isAntisymm : IsAntisymm String stringLT where
  antisymm a b h1 h2 := by
    unfold stringLT stringLess at h1 h2
    rw [bytesLess_asymm _ _ h1] at h2
    exact Bool.noConfusion h2

/-- Two strictly ascending lists with the same members are the same list. -/
theorem sorted_stringLT_ext {l₁ l₂ : List String} (h₁ : l₁.Sorted stringLT)
    (h₂ : l₂.Sorted stringLT) (h : ∀ x, x ∈ l₁ ↔ x ∈ l₂) : l₁ = l₂ :=
  List.eq_of_perm_of_sorted ((List.perm_ext_iff_of_nodup h₁.nodup h₂.nodup).mpr h) h₁ h₂

theorem HasFinalizer_iff (object : ObjectMeta) (x : String) :
    HasFinalizer object x = true ↔ x ∈ object.GetFinalizers := by
  simp [HasFinalizer, sets.String.Has, sets_mem_NewString]

theorem AddFinalizer_sorted (object : ObjectMeta) (m : String) :
    (AddFinalizer object m).GetFinalizers.Sorted stringLT :=
  sets_List_sorted _ (sets_Insert_nodup _ m (sets_NewString_nodup _))

theorem DeleteFinalizer_sorted (object : ObjectMeta) (m : String) :
    (DeleteFinalizer object m).GetFinalizers.Sorted stringLT :=
  sets_List_sorted _ (sets_Delete_nodup _ m (sets_NewString_nodup _))

theorem mem_AddFinalizer (object : ObjectMeta) (m x : String) :
    x ∈ (AddFinalizer object m).GetFinalizers ↔ x = m ∨ x ∈ object.GetFinalizers := by
  show x ∈ sets.String.List _ ↔ _
  rw [sets_mem_List, sets_mem_Insert, sets_mem_NewString]

theorem mem_DeleteFinalizer (object : ObjectMeta) (m x : String) :
    x ∈ (DeleteFinalizer object m).GetFinalizers ↔ x ≠ m ∧ x ∈ object.GetFinalizers := by
  show x ∈ sets.String.List _ ↔ _
  rw [sets_mem_List, sets_mem_Delete, sets_mem_NewString]

theorem ObjectMeta_ext_finalizers {a b : ObjectMeta} (h₁ : a.Name = b.Name)
    (h₂ : a.Namespace = b.Namespace) (h₃ : a.Labels = b.Labels)
    (h₄ : a.GetFinalizers = b.GetFinalizers) : a = b := by
  cases a; cases b
  simp only [ObjectMeta.GetFinalizers] at *
  subst h₁ h₂ h₃ h₄
  rfl

/-! ## Finalizer utility: the claims -/

/-- C1: after `AddFinalizer(object, m)`, `HasFinalizer(object, m)` is true, for every object
(whatever its finalizer list: empty, unsorted, with duplicates) and every marker `m`. -/
theorem C1_add_then_has (object : ObjectMeta) (m : String) :
    HasFinalizer (AddFinalizer object m) m = true := by
  rw [HasFinalizer_iff, mem_AddFinalizer]
  exact Or.inl rfl

/-- C2: after `DeleteFinalizer(object, m)`, `HasFinalizer(object, m)` is false, for every
object (also when `m` occurs several times in its finalizer list) and every marker `m`. -/
theorem C2_delete_then_has_not (object : ObjectMeta) (m : String) :
    HasFinalizer (DeleteFinalizer object m) m = false := by
  rw [← Bool.not_eq_true, HasFinalizer_iff, mem_DeleteFinalizer]
  exact fun h => h.1 rfl

/-- C3: `AddFinalizer` and `DeleteFinalizer` are idempotent: applying either twice with the
same marker leaves the same object (hence the same finalizers) as applying it once. -/
theorem C3_idempotent (object : ObjectMeta) (m : String) :
    AddFinalizer (AddFinalizer object m) m = AddFinalizer object m ∧
      DeleteFinalizer (DeleteFinalizer object m) m = DeleteFinalizer object m := by
  constructor
  · refine ObjectMeta_ext_finalizers rfl rfl rfl ?_
    refine sorted_stringLT_ext (AddFinalizer_sorted _ m) (AddFinalizer_sorted _ m) (fun x => ?_)
    rw [mem_AddFinalizer, mem_AddFinalizer]
    tauto
  · refine ObjectMeta_ext_finalizers rfl rfl rfl ?_
    refine sorted_stringLT_ext (DeleteFinalizer_sorted _ m) (DeleteFinalizer_sorted _ m)
      (fun x => ?_)
    rw [mem_DeleteFinalizer, mem_DeleteFinalizer]
    tauto

/-- C4, as stated, fails: with finalizers `["b", "a"]`, the marker `"a"` is present and
`AddFinalizer` stores `["a", "b"]`; the marker `"c"` is absent and `DeleteFinalizer` stores
`["a", "b"]`. Neither is the list before the call. -/
theorem C4_noop_counterexample :
    ("a" ∈ (ObjectMeta.mk "pdi" "ns" none ["b", "a"]).GetFinalizers ∧
      (AddFinalizer (ObjectMeta.mk "pdi" "ns" none ["b", "a"]) "a").GetFinalizers
        ≠ (ObjectMeta.mk "pdi" "ns" none ["b", "a"]).GetFinalizers) ∧
    ("c" ∉ (ObjectMeta.mk "pdi" "ns" none ["b", "a"]).GetFinalizers ∧
      (DeleteFinalizer (ObjectMeta.mk "pdi" "ns" none ["b", "a"]) "c").GetFinalizers
        ≠ (ObjectMeta.mk "pdi" "ns" none ["b", "a"]).GetFinalizers) := by
  decide

/-- C4, amended: when `m` is already present `AddFinalizer(object, m)`, and when `m` is absent
`DeleteFinalizer(object, m)`, leaves the set of finalizers unchanged (`HasFinalizer` answers
the same for every string), and the stored list equals the list before the call exactly when
that list was in strictly ascending order. -/
theorem C4_noop_on_set (object : ObjectMeta) (m : String) :
    (m ∈ object.GetFinalizers →
      (∀ x, HasFinalizer (AddFinalizer object m) x = HasFinalizer object x) ∧
      ((AddFinalizer object m).GetFinalizers = object.GetFinalizers ↔
        object.GetFinalizers.Sorted stringLT)) ∧
    (m ∉ object.GetFinalizers →
      (∀ x, HasFinalizer (DeleteFinalizer object m) x = HasFinalizer object x) ∧
      ((DeleteFinalizer object m).GetFinalizers = object.GetFinalizers ↔
        object.GetFinalizers.Sorted stringLT)) := by
  constructor
  · intro hm
    have hmem : ∀ x, x ∈ (AddFinalizer object m).GetFinalizers ↔ x ∈ object.GetFinalizers := by
      intro x
      rw [mem_AddFinalizer]
      constructor
      · rintro (rfl | h)
        · exact hm
        · exact h
      · exact Or.inr
    refine ⟨fun x => ?_, ?_, ?_⟩
    · rw [Bool.eq_iff_iff, HasFinalizer_iff, HasFinalizer_iff]
      exact hmem x
    · intro h
      rw [← h]
      exact AddFinalizer_sorted object m
    · intro h
      exact sorted_stringLT_ext (AddFinalizer_sorted object m) h hmem
  · intro hm
    have hmem : ∀ x, x ∈ (DeleteFinalizer object m).GetFinalizers ↔
        x ∈ object.GetFinalizers := by
      intro x
      rw [mem_DeleteFinalizer]
      constructor
      · exact fun h => h.2
      · intro h
        refine ⟨?_, h⟩
        rintro rfl
        exact hm h
    refine ⟨fun x => ?_, ?_, ?_⟩
    · rw [Bool.eq_iff_iff, HasFinalizer_iff, HasFinalizer_iff]
      exact hmem x
    · intro h
      rw [← h]
      exact DeleteFinalizer_sorted object m
    · intro h
      exact sorted_stringLT_ext (DeleteFinalizer_sorted object m) h hmem

/-- C4, amended, at concrete objects: `"a"` present in `["a", "b"]`, `"c"` absent from it. -/
theorem C4_noop_on_set_witness :
    ("a" ∈ (ObjectMeta.mk "pdi" "ns" none ["a", "b"]).GetFinalizers ∧
      ((∀ x, HasFinalizer (AddFinalizer (ObjectMeta.mk "pdi" "ns" none ["a", "b"]) "a") x =
          HasFinalizer (ObjectMeta.mk "pdi" "ns" none ["a", "b"]) x) ∧
        ((AddFinalizer (ObjectMeta.mk "pdi" "ns" none ["a", "b"]) "a").GetFinalizers =
            (ObjectMeta.mk "pdi" "ns" none ["a", "b"]).GetFinalizers ↔
          (ObjectMeta.mk "pdi" "ns" none ["a", "b"]).GetFinalizers.Sorted stringLT))) ∧
    ("c" ∉ (ObjectMeta.mk "pdi" "ns" none ["a", "b"]).GetFinalizers ∧
      ((∀ x, HasFinalizer (DeleteFinalizer (ObjectMeta.mk "pdi" "ns" none ["a", "b"]) "c") x =
          HasFinalizer (ObjectMeta.mk "pdi" "ns" none ["a", "b"]) x) ∧
        ((DeleteFinalizer (ObjectMeta.mk "pdi" "ns" none ["a", "b"]) "c").GetFinalizers =
            (ObjectMeta.mk "pdi" "ns" none ["a", "b"]).GetFinalizers ↔
          (ObjectMeta.mk "pdi" "ns" none ["a", "b"]).GetFinalizers.Sorted stringLT))) :=
  ⟨⟨by decide, (C4_noop_on_set (ObjectMeta.mk "pdi" "ns" none ["a", "b"]) "a").1 (by decide)⟩,
    ⟨by decide, (C4_noop_on_set (ObjectMeta.mk "pdi" "ns" none ["a", "b"]) "c").2 (by decide)⟩⟩

/-! ## Cluster identity resolver -/

theorem splitChars_ne_nil (sep : Char) (l : List Char) : splitChars sep l ≠ [] := by
  cases l with
  | nil => simp [splitChars]
  | cons c cs =>
    simp only [splitChars]
    split
    · simp
    · split <;> simp

/-- A string without the separator is its own single segment. -/
theorem splitChars_of_not_mem (sep : Char) (l : List Char) (h : sep ∉ l) :
    splitChars sep l = [l] := by
  induction l with
  | nil => rfl
  | cons c cs ih =>
    rw [List.mem_cons, not_or] at h
    have hc : ¬ c = sep := fun e => h.1 e.symm
    simp [splitChars, hc, ih h.2]

/-- Splitting distributes over an occurrence of the separator. -/
theorem splitChars_append (sep : Char) (p q : List Char) :
    splitChars sep (p ++ sep :: q) = splitChars sep p ++ splitChars sep q := by
  induction p with
  | nil => simp [splitChars]
  | cons c cs ih =>
    by_cases hc : c = sep
    · simp [splitChars, hc, ih]
    · cases h : splitChars sep cs with
      | nil => exact absurd h (splitChars_ne_nil sep cs)
      | cons seg segs => simp [splitChars, hc, ih, h]

/-- Every string is free of the separator or has a last occurrence of it. -/
theorem last_occurrence (sep : Char) (l : List Char) :
    sep ∉ l ∨ ∃ p r, l = p ++ sep :: r ∧ sep ∉ r := by
  induction l with
  | nil => exact Or.inl (List.not_mem_nil sep)
  | cons c cs ih =>
    rcases ih with h | ⟨p, r, h, hr⟩
    · by_cases hc : c = sep
      · exact Or.inr ⟨[], cs, by simp [hc], h⟩
      · refine Or.inl ?_
        rw [List.mem_cons, not_or]
        exact ⟨fun e => hc e.symm, h⟩
    · exact Or.inr ⟨c :: p, r, by simp [h], hr⟩

theorem sliceIndex_last {α : Type} (xs : List α) (h : xs ≠ []) :
    sliceIndex xs ((xs.length : Int) - 1) = xs.getLast? := by
  have hlen : 0 < xs.length := List.length_pos.mpr h
  have hcond : 0 ≤ (xs.length : Int) - 1 ∧ (xs.length : Int) - 1 < (xs.length : Int) := by
    omega
  have hnat : ((xs.length : Int) - 1).toNat = xs.length - 1 := by omega
  rw [sliceIndex, if_pos hcond, hnat, List.getLast?_eq_getElem?, List.get?_eq_getElem?]

/-- In restricted mode the identifier is the last segment of the namespace. -/
theorem GetClusterID_fedramp (cd : ClusterDeployment) :
    GetClusterID true cd = (strings.Split cd.Namespace '-').getLast? := by
  have hne : strings.Split cd.Namespace '-' ≠ [] := by
    simp [strings.Split, splitChars_ne_nil]
  simp only [GetClusterID, if_true]
  exact sliceIndex_last _ hne

/-- C5: with restricted mode on, `GetClusterID` returns the substring of the namespace after
its last `-`: the result holds no `-`, and the namespace is a prefix, then `-`, then the
result (or is the result itself when the namespace holds no `-`). The declared cluster name
is not consulted. Namespace `acme-prod-xyz123` gives `xyz123`. -/
theorem C5_fedramp_last_segment (cd : ClusterDeployment) :
    (∃ r : String, GetClusterID true cd = some r ∧ '-' ∉ r.data ∧
      ((∃ p : String, cd.Namespace = p ++ "-" ++ r) ∨
        ('-' ∉ cd.Namespace.data ∧ cd.Namespace = r))) ∧
    (∀ spec : ClusterDeploymentSpec,
      GetClusterID true { cd with Spec := spec } = GetClusterID true cd) ∧
    GetClusterID true ⟨⟨"cd", "acme-prod-xyz123", none, []⟩, ⟨"declared"⟩⟩ = some "xyz123" := by
  refine ⟨?_, fun _ => rfl, by decide⟩
  rw [GetClusterID_fedramp]
  rcases last_occurrence '-' cd.Namespace.data with h | ⟨p, r, h, hr⟩
  · refine ⟨cd.Namespace, ?_, h, Or.inr ⟨h, rfl⟩⟩
    simp [strings.Split, splitChars_of_not_mem _ _ h]
  · refine ⟨String.mk r, ?_, hr, Or.inl ⟨String.mk p, ?_⟩⟩
    · simp [strings.Split, h, splitChars_append, splitChars_of_not_mem _ _ hr]
    · apply String.ext
      simp [h, String.data_append]

/-- C6: with restricted mode off, `GetClusterID` returns the declared cluster name verbatim,
whatever the namespace, also when the name holds `-` or is empty. Cluster name `acme-prod`
gives `acme-prod`. -/
theorem C6_standard_cluster_name (cd : ClusterDeployment) :
    GetClusterID false cd = some cd.Spec.ClusterName ∧
    GetClusterID false ⟨⟨"cd", "uhc-production-xyz123", none, []⟩, ⟨"acme-prod"⟩⟩
      = some "acme-prod" ∧
    GetClusterID false ⟨⟨"cd", "uhc-production-xyz123", none, []⟩, ⟨""⟩⟩ = some "" :=
  ⟨rfl, rfl, rfl⟩

/-- C7: `IsRedHatInfrastructure` is true if and only if the labels bind the key
`ext-pagerduty.openshift.io/rh-infra` to exactly `true`; the values `True`, `1` and the
empty string, a missing key, an empty map and a nil map all give false. -/
theorem C7_rh_infra_label (cd : ClusterDeployment) :
    (IsRedHatInfrastructure cd = true ↔
      ∃ kvs, cd.Labels = some kvs ∧
        kvs.lookup "ext-pagerduty.openshift.io/rh-infra" = some "true") ∧
    IsRedHatInfrastructure
      ⟨⟨"cd", "ns", some [("ext-pagerduty.openshift.io/rh-infra", "True")], []⟩, ⟨"c"⟩⟩ = false ∧
    IsRedHatInfrastructure
      ⟨⟨"cd", "ns", some [("ext-pagerduty.openshift.io/rh-infra", "1")], []⟩, ⟨"c"⟩⟩ = false ∧
    IsRedHatInfrastructure
      ⟨⟨"cd", "ns", some [("ext-pagerduty.openshift.io/rh-infra", "")], []⟩, ⟨"c"⟩⟩ = false ∧
    IsRedHatInfrastructure ⟨⟨"cd", "ns", some [("other", "true")], []⟩, ⟨"c"⟩⟩ = false ∧
    IsRedHatInfrastructure ⟨⟨"cd", "ns", some [], []⟩, ⟨"c"⟩⟩ = false ∧
    IsRedHatInfrastructure ⟨⟨"cd", "ns", none, []⟩, ⟨"c"⟩⟩ = false := by
  refine ⟨?_, by decide, by decide, by decide, by decide, by decide, by decide⟩
  unfold IsRedHatInfrastructure GoMap.index
  cases hl : cd.Labels with
  | none => simp
  | some kvs =>
    cases hk : kvs.lookup "ext-pagerduty.openshift.io/rh-infra" with
    | none => simp [hk]
    | some v => simp [hk]

/-! ## Cleanup helpers -/

/-- What a helper returns, from the result of `Get` and the result of the `Delete` that
follows a successful `Get`. -/
theorem DeleteConfigMap_result {σ ε : Type} (IsNotFound : ε → Bool) (name namespace_ : String)
    (client : Client σ ε) (w : World σ) :
    (DeleteConfigMap IsNotFound name namespace_ client w).2 =
      match (client.Get w.state ⟨namespace_, name⟩ (Object.empty ObjectKind.ConfigMap)).2.2 with
      | some err => if IsNotFound err then none else some err
      | none =>
        match (client.Delete
            (client.Get w.state ⟨namespace_, name⟩ (Object.empty ObjectKind.ConfigMap)).1
            (client.Get w.state ⟨namespace_, name⟩ (Object.empty ObjectKind.ConfigMap)).2.1).2
          with
        | some err => if IsNotFound err then none else some err
        | none => none := by
  simp only [DeleteConfigMap, Client.get, Client.delete, World.Info]
  rcases hg : client.Get w.state ⟨namespace_, name⟩ (Object.empty ObjectKind.ConfigMap)
    with ⟨s₁, obj, _ | e⟩
  · rcases hd : client.Delete s₁ obj with ⟨s₂, _ | e⟩
    · simp [hd]
    · by_cases h : IsNotFound e <;> simp [hd, h]
  · by_cases h : IsNotFound e <;> simp [h]

theorem DeleteSyncSet_result {σ ε : Type} (IsNotFound : ε → Bool) (name namespace_ : String)
    (client : Client σ ε) (w : World σ) :
    (DeleteSyncSet IsNotFound name namespace_ client w).2 =
      match (client.Get w.state ⟨namespace_, name⟩ (Object.empty ObjectKind.SyncSet)).2.2 with
      | some err => if IsNotFound err then none else some err
      | none =>
        match (client.Delete
            (client.Get w.state ⟨namespace_, name⟩ (Object.empty ObjectKind.SyncSet)).1
            (client.Get w.state ⟨namespace_, name⟩ (Object.empty ObjectKind.SyncSet)).2.1).2
          with
        | some err => if IsNotFound err then none else some err
        | none => none := by
  simp only [DeleteSyncSet, Client.get, Client.delete, World.Info]
  rcases hg : client.Get w.state ⟨namespace_, name⟩ (Object.empty ObjectKind.SyncSet)
    with ⟨s₁, obj, _ | e⟩
  · rcases hd : client.Delete s₁ obj with ⟨s₂, _ | e⟩
    · simp [hd]
    · by_cases h : IsNotFound e <;> simp [hd, h]
  · by_cases h : IsNotFound e <;> simp [h]

theorem DeleteSecret_result {σ ε : Type} (IsNotFound : ε → Bool) (name namespace_ : String)
    (client : Client σ ε) (w : World σ) :
    (DeleteSecret IsNotFound name namespace_ client w).2 =
      match (client.Get w.state ⟨namespace_, name⟩ (Object.empty ObjectKind.Secret)).2.2 with
      | some err => if IsNotFound err then none else some err
      | none =>
        match (client.Delete
            (client.Get w.state ⟨namespace_, name⟩ (Object.empty ObjectKind.Secret)).1
            (client.Get w.state ⟨namespace_, name⟩ (Object.empty ObjectKind.Secret)).2.1).2
          with
        | some err => if IsNotFound err then none else some err
        | none => none := by
  simp only [DeleteSecret, Client.get, Client.delete, World.Info]
  rcases hg : client.Get w.state ⟨namespace_, name⟩ (Object.empty ObjectKind.Secret)
    with ⟨s₁, obj, _ | e⟩
  · rcases hd : client.Delete s₁ obj with ⟨s₂, _ | e⟩
    · simp [hd]
    · by_cases h : IsNotFound e <;> simp [hd, h]
  · by_cases h : IsNotFound e <;> simp [h]

/-- The error a helper returns, as a condition on the two results of the client. -/
theorem cleanup_result_iff {ε : Type} (IsNotFound : ε → Bool) (g d : Option ε) (e : ε) :
    (match g with
      | some err => if IsNotFound err then none else some err
      | none =>
        match d with
        | some err => if IsNotFound err then none else some err
        | none => none) = some e ↔
      (g = some e ∧ IsNotFound e = false) ∨ (g = none ∧ d = some e ∧ IsNotFound e = false) := by
  rcases g with _ | err
  · rcases d with _ | err
    · simp
    · by_cases h : IsNotFound err = true
      · simp only [h, if_true, true_and, false_and, false_or, Option.some.injEq, reduceCtorEq,
          false_iff, not_and, Bool.not_eq_false]
        rintro rfl
        exact h
      · simp only [h, if_false, true_and, false_and, false_or, Option.some.injEq, reduceCtorEq,
          iff_self_and]
        rintro rfl
        simpa using h
  · by_cases h : IsNotFound err = true
    · simp only [h, if_true, false_and, or_false, Option.some.injEq, reduceCtorEq,
        false_iff, not_and, Bool.not_eq_false]
      rintro rfl
      exact h
    · simp only [h, if_false, false_and, or_false, Option.some.injEq, reduceCtorEq,
        iff_self_and]
      rintro rfl
      simpa using h

/-- C8: cleanup of an already-absent object succeeds. For each of `DeleteConfigMap`,
`DeleteSyncSet` and `DeleteSecret`, every name and namespace and every client: when `Get`
reports a not-found error, the helper returns nil and the only call issued is that `Get`
(no `Delete`). -/
theorem C8_absent_is_success {σ ε : Type} (IsNotFound : ε → Bool) (name namespace_ : String)
    (client : Client σ ε) (w : World σ) (e : ε) (hnf : IsNotFound e = true) :
    ((client.Get w.state ⟨namespace_, name⟩ (Object.empty ObjectKind.ConfigMap)).2.2 = some e →
      (DeleteConfigMap IsNotFound name namespace_ client w).2 = none ∧
      (DeleteConfigMap IsNotFound name namespace_ client w).1.calls =
        w.calls ++ [Call.Get ⟨namespace_, name⟩ (Object.empty ObjectKind.ConfigMap)]) ∧
    ((client.Get w.state ⟨namespace_, name⟩ (Object.empty ObjectKind.SyncSet)).2.2 = some e →
      (DeleteSyncSet IsNotFound name namespace_ client w).2 = none ∧
      (DeleteSyncSet IsNotFound name namespace_ client w).1.calls =
        w.calls ++ [Call.Get ⟨namespace_, name⟩ (Object.empty ObjectKind.SyncSet)]) ∧
    ((client.Get w.state ⟨namespace_, name⟩ (Object.empty ObjectKind.Secret)).2.2 = some e →
      (DeleteSecret IsNotFound name namespace_ client w).2 = none ∧
      (DeleteSecret IsNotFound name namespace_ client w).1.calls =
        w.calls ++ [Call.Get ⟨namespace_, name⟩ (Object.empty ObjectKind.Secret)]) := by
  refine ⟨?_, ?_, ?_⟩
  · intro he
    simp only [DeleteConfigMap, Client.get]
    rcases hg : client.Get w.state ⟨namespace_, name⟩ (Object.empty ObjectKind.ConfigMap)
      with ⟨s₁, obj, err⟩
    rw [hg] at he
    simp only at he
    subst he
    simp [hnf]
  · intro he
    simp only [DeleteSyncSet, Client.get]
    rcases hg : client.Get w.state ⟨namespace_, name⟩ (Object.empty ObjectKind.SyncSet)
      with ⟨s₁, obj, err⟩
    rw [hg] at he
    simp only at he
    subst he
    simp [hnf]
  · intro he
    simp only [DeleteSecret, Client.get]
    rcases hg : client.Get w.state ⟨namespace_, name⟩ (Object.empty ObjectKind.Secret)
      with ⟨s₁, obj, err⟩
    rw [hg] at he
    simp only at he
    subst he
    simp [hnf]

/-- C8 on the faithful client over a store that holds another object only, where each `Get`
of the helpers reports not-found. -/
theorem C8_absent_is_success_witness :
    ((DeleteConfigMap StoreError.IsNotFound "pd-config" "ns" storeClient
        (World.init [⟨ObjectKind.Secret, "ns", "other", []⟩])).2 = none ∧
      (DeleteConfigMap StoreError.IsNotFound "pd-config" "ns" storeClient
        (World.init [⟨ObjectKind.Secret, "ns", "other", []⟩])).1.calls =
        (World.init ([⟨ObjectKind.Secret, "ns", "other", []⟩] : Store)).calls ++
          [Call.Get ⟨"ns", "pd-config"⟩ (Object.empty ObjectKind.ConfigMap)]) ∧
    ((DeleteSyncSet StoreError.IsNotFound "pd-config" "ns" storeClient
        (World.init [⟨ObjectKind.Secret, "ns", "other", []⟩])).2 = none ∧
      (DeleteSyncSet StoreError.IsNotFound "pd-config" "ns" storeClient
        (World.init [⟨ObjectKind.Secret, "ns", "other", []⟩])).1.calls =
        (World.init ([⟨ObjectKind.Secret, "ns", "other", []⟩] : Store)).calls ++
          [Call.Get ⟨"ns", "pd-config"⟩ (Object.empty ObjectKind.SyncSet)]) ∧
    ((DeleteSecret StoreError.IsNotFound "pd-config" "ns" storeClient
        (World.init [⟨ObjectKind.Secret, "ns", "other", []⟩])).2 = none ∧
      (DeleteSecret StoreError.IsNotFound "pd-config" "ns" storeClient
        (World.init [⟨ObjectKind.Secret, "ns", "other", []⟩])).1.calls =
        (World.init ([⟨ObjectKind.Secret, "ns", "other", []⟩] : Store)).calls ++
          [Call.Get ⟨"ns", "pd-config"⟩ (Object.empty ObjectKind.Secret)]) :=
  ⟨(C8_absent_is_success StoreError.IsNotFound "pd-config" "ns" storeClient
      (World.init [⟨ObjectKind.Secret, "ns", "other", []⟩])
      (StoreError.NotFound ObjectKind.ConfigMap ⟨"ns", "pd-config"⟩) rfl).1 (by decide),
    (C8_absent_is_success StoreError.IsNotFound "pd-config" "ns" storeClient
      (World.init [⟨ObjectKind.Secret, "ns", "other", []⟩])
      (StoreError.NotFound ObjectKind.SyncSet ⟨"ns", "pd-config"⟩) rfl).2.1 (by decide),
    (C8_absent_is_success StoreError.IsNotFound "pd-config" "ns" storeClient
      (World.init [⟨ObjectKind.Secret, "ns", "other", []⟩])
      (StoreError.NotFound ObjectKind.Secret ⟨"ns", "pd-config"⟩) rfl).2.2 (by decide)⟩

/-- C9: for each of `DeleteConfigMap`, `DeleteSyncSet` and `DeleteSecret`, as a function of
the client's responses: the helper returns the error `e` if and only if `Get` failed with
`e` and `e` is not not-found, or `Get` succeeded and `Delete` (of the object `Get` filled, in
the state `Get` left) failed with `e` and `e` is not not-found. So the error returned is the
client's own, and a not-found from either call is success. -/
theorem C9_error_propagation {σ ε : Type} (IsNotFound : ε → Bool) (name namespace_ : String)
    (client : Client σ ε) (w : World σ) (e : ε) :
    ((DeleteConfigMap IsNotFound name namespace_ client w).2 = some e ↔
      ((client.Get w.state ⟨namespace_, name⟩ (Object.empty ObjectKind.ConfigMap)).2.2 = some e
          ∧ IsNotFound e = false) ∨
        ((client.Get w.state ⟨namespace_, name⟩ (Object.empty ObjectKind.ConfigMap)).2.2 = none
          ∧ (client.Delete
              (client.Get w.state ⟨namespace_, name⟩ (Object.empty ObjectKind.ConfigMap)).1
              (client.Get w.state ⟨namespace_, name⟩
                (Object.empty ObjectKind.ConfigMap)).2.1).2 = some e
          ∧ IsNotFound e = false)) ∧
    ((DeleteSyncSet IsNotFound name namespace_ client w).2 = some e ↔
      ((client.Get w.state ⟨namespace_, name⟩ (Object.empty ObjectKind.SyncSet)).2.2 = some e
          ∧ IsNotFound e = false) ∨
        ((client.Get w.state ⟨namespace_, name⟩ (Object.empty ObjectKind.SyncSet)).2.2 = none
          ∧ (client.Delete
              (client.Get w.state ⟨namespace_, name⟩ (Object.empty ObjectKind.SyncSet)).1
              (client.Get w.state ⟨namespace_, name⟩
                (Object.empty ObjectKind.SyncSet)).2.1).2 = some e
          ∧ IsNotFound e = false)) ∧
    ((DeleteSecret IsNotFound name namespace_ client w).2 = some e ↔
      ((client.Get w.state ⟨namespace_, name⟩ (Object.empty ObjectKind.Secret)).2.2 = some e
          ∧ IsNotFound e = false) ∨
        ((client.Get w.state ⟨namespace_, name⟩ (Object.empty ObjectKind.Secret)).2.2 = none
          ∧ (client.Delete
              (client.Get w.state ⟨namespace_, name⟩ (Object.empty ObjectKind.Secret)).1
              (client.Get w.state ⟨namespace_, name⟩
                (Object.empty ObjectKind.Secret)).2.1).2 = some e
          ∧ IsNotFound e = false)) := by
  refine ⟨?_, ?_, ?_⟩
  · rw [DeleteConfigMap_result]
    exact cleanup_result_iff IsNotFound _ _ e
  · rw [DeleteSyncSet_result]
    exact cleanup_result_iff IsNotFound _ _ e
  · rw [DeleteSecret_result]
    exact cleanup_result_iff IsNotFound _ _ e

/-! ### The helpers over the faithful client -/

theorem Store_lookup_remove (s : Store) (kind : ObjectKind) (key : NamespacedName) :
    (s.remove kind key).lookup kind key = none := by
  simp only [Store.lookup, Store.remove, List.find?_eq_none, List.mem_filter]
  intro o ho
  simpa using ho.2

theorem Store_remove_of_lookup_none (s : Store) (kind : ObjectKind) (key : NamespacedName)
    (h : s.lookup kind key = none) : s.remove kind key = s := by
  simp only [Store.lookup, List.find?_eq_none] at h
  simp only [Store.remove, List.filter_eq_self]
  intro o ho
  simpa using h o ho

theorem Store_lookup_key (s : Store) (kind : ObjectKind) (key : NamespacedName) (o : Object)
    (h : s.lookup kind key = some o) :
    o.Kind = kind ∧ o.Namespace = key.Namespace ∧ o.Name = key.Name := by
  have := List.find?_some h
  simpa [Object.hasKey, and_assoc] using this

/-- Over the faithful client a helper returns nil and removes the entry of its kind at the
given namespace and name. -/
theorem DeleteConfigMap_store (name namespace_ : String) (w : World Store) :
    (DeleteConfigMap StoreError.IsNotFound name namespace_ storeClient w).2 = none ∧
    (DeleteConfigMap StoreError.IsNotFound name namespace_ storeClient w).1.state =
      w.state.remove ObjectKind.ConfigMap ⟨namespace_, name⟩ := by
  simp only [DeleteConfigMap, Client.get, Client.delete, World.Info, storeClient, Object.empty]
  cases h : Store.lookup w.state ObjectKind.ConfigMap ⟨namespace_, name⟩ with
  | none => simp [StoreError.IsNotFound, Store_remove_of_lookup_none _ _ _ h]
  | some o =>
    obtain ⟨h1, h2, h3⟩ := Store_lookup_key _ _ _ _ h
    simp only at h2 h3
    simp [h1, h2, h3, h]

theorem DeleteSyncSet_store (name namespace_ : String) (w : World Store) :
    (DeleteSyncSet StoreError.IsNotFound name namespace_ storeClient w).2 = none ∧
    (DeleteSyncSet StoreError.IsNotFound name namespace_ storeClient w).1.state =
      w.state.remove ObjectKind.SyncSet ⟨namespace_, name⟩ := by
  simp only [DeleteSyncSet, Client.get, Client.delete, World.Info, storeClient, Object.empty]
  cases h : Store.lookup w.state ObjectKind.SyncSet ⟨namespace_, name⟩ with
  | none => simp [StoreError.IsNotFound, Store_remove_of_lookup_none _ _ _ h]
  | some o =>
    obtain ⟨h1, h2, h3⟩ := Store_lookup_key _ _ _ _ h
    simp only at h2 h3
    simp [h1, h2, h3, h]

theorem DeleteSecret_store (name namespace_ : String) (w : World Store) :
    (DeleteSecret StoreError.IsNotFound name namespace_ storeClient w).2 = none ∧
    (DeleteSecret StoreError.IsNotFound name namespace_ storeClient w).1.state =
      w.state.remove ObjectKind.Secret ⟨namespace_, name⟩ := by
  simp only [DeleteSecret, Client.get, Client.delete, World.Info, storeClient, Object.empty]
  cases h : Store.lookup w.state ObjectKind.Secret ⟨namespace_, name⟩ with
  | none => simp [StoreError.IsNotFound, Store_remove_of_lookup_none _ _ _ h]
  | some o =>
    obtain ⟨h1, h2, h3⟩ := Store_lookup_key _ _ _ _ h
    simp only at h2 h3
    simp [h1, h2, h3, h]

/-- C10: the cleanup helpers are safe to call several times. Over the faithful client, for
every store, name and namespace and each of `DeleteConfigMap`, `DeleteSyncSet`,
`DeleteSecret`: the call returns nil and leaves the object absent; a second call also
returns nil and leaves the store as the first call left it. -/
theorem C10_cleanup_twice (name namespace_ : String) (w : World Store) :
    ((DeleteConfigMap StoreError.IsNotFound name namespace_ storeClient w).2 = none ∧
      (DeleteConfigMap StoreError.IsNotFound name namespace_ storeClient w).1.state.lookup
        ObjectKind.ConfigMap ⟨namespace_, name⟩ = none ∧
      (DeleteConfigMap StoreError.IsNotFound name namespace_ storeClient
        (DeleteConfigMap StoreError.IsNotFound name namespace_ storeClient w).1).2 = none ∧
      (DeleteConfigMap StoreError.IsNotFound name namespace_ storeClient
        (DeleteConfigMap StoreError.IsNotFound name namespace_ storeClient w).1).1.state =
        (DeleteConfigMap StoreError.IsNotFound name namespace_ storeClient w).1.state) ∧
    ((DeleteSyncSet StoreError.IsNotFound name namespace_ storeClient w).2 = none ∧
      (DeleteSyncSet StoreError.IsNotFound name namespace_ storeClient w).1.state.lookup
        ObjectKind.SyncSet ⟨namespace_, name⟩ = none ∧
      (DeleteSyncSet StoreError.IsNotFound name namespace_ storeClient
        (DeleteSyncSet StoreError.IsNotFound name namespace_ storeClient w).1).2 = none ∧
      (DeleteSyncSet StoreError.IsNotFound name namespace_ storeClient
        (DeleteSyncSet StoreError.IsNotFound name namespace_ storeClient w).1).1.state =
        (DeleteSyncSet StoreError.IsNotFound name namespace_ storeClient w).1.state) ∧
    ((DeleteSecret StoreError.IsNotFound name namespace_ storeClient w).2 = none ∧
      (DeleteSecret StoreError.IsNotFound name namespace_ storeClient w).1.state.lookup
        ObjectKind.Secret ⟨namespace_, name⟩ = none ∧
      (DeleteSecret StoreError.IsNotFound name namespace_ storeClient
        (DeleteSecret StoreError.IsNotFound name namespace_ storeClient w).1).2 = none ∧
      (DeleteSecret StoreError.IsNotFound name namespace_ storeClient
        (DeleteSecret StoreError.IsNotFound name namespace_ storeClient w).1).1.state =
        (DeleteSecret StoreError.IsNotFound name namespace_ storeClient w).1.state) := by
  refine ⟨⟨(DeleteConfigMap_store name namespace_ w).1, ?_,
      (DeleteConfigMap_store name namespace_ _).1, ?_⟩,
    ⟨(DeleteSyncSet_store name namespace_ w).1, ?_,
      (DeleteSyncSet_store name namespace_ _).1, ?_⟩,
    ⟨(DeleteSecret_store name namespace_ w).1, ?_,
      (DeleteSecret_store name namespace_ _).1, ?_⟩⟩
  · rw [(DeleteConfigMap_store name namespace_ w).2]
    exact Store_lookup_remove _ _ _
  · rw [(DeleteConfigMap_store name namespace_ _).2, (DeleteConfigMap_store name namespace_ w).2]
    exact Store_remove_of_lookup_none _ _ _ (Store_lookup_remove _ _ _)
  · rw [(DeleteSyncSet_store name namespace_ w).2]
    exact Store_lookup_remove _ _ _
  · rw [(DeleteSyncSet_store name namespace_ _).2, (DeleteSyncSet_store name namespace_ w).2]
    exact Store_remove_of_lookup_none _ _ _ (Store_lookup_remove _ _ _)
  · rw [(DeleteSecret_store name namespace_ w).2]
    exact Store_lookup_remove _ _ _
  · rw [(DeleteSecret_store name namespace_ _).2, (DeleteSecret_store name namespace_ w).2]
    exact Store_remove_of_lookup_none _ _ _ (Store_lookup_remove _ _ _)

/-! ### Sibling cleanups in either order -/

theorem Store_remove_comm (s : Store) (k₁ k₂ : ObjectKind) (key₁ key₂ : NamespacedName) :
    (s.remove k₁ key₁).remove k₂ key₂ = (s.remove k₂ key₂).remove k₁ key₁ := by
  simp only [Store.remove, List.filter_filter]
  congr 1
  funext o
  exact Bool.and_comm _ _

theorem Store_remove_eq_filter (s : Store) (kind : ObjectKind) (name namespace_ : String) :
    s.remove kind ⟨namespace_, name⟩ =
      s.filter (fun o => !(decide (o.Kind = kind) && decide (o.Namespace = namespace_) &&
        decide (o.Name = name))) :=
  rfl

/-- C11: the cleanup helpers are safe to call in any order relative to their siblings. Over
the faithful client, for any two helpers of different kinds, with any names and namespaces
(the same ones included): both orders end in the same store, and each helper returns in one
order what it returns in the other. Each helper leaves the store without the objects of its
own kind at the given namespace and name, every other entry kept as it was. -/
theorem C11_cleanup_any_order (n₁ ns₁ n₂ ns₂ : String) (w : World Store) :
    ((DeleteSyncSet StoreError.IsNotFound n₂ ns₂ storeClient
          (DeleteConfigMap StoreError.IsNotFound n₁ ns₁ storeClient w).1).1.state =
        (DeleteConfigMap StoreError.IsNotFound n₁ ns₁ storeClient
          (DeleteSyncSet StoreError.IsNotFound n₂ ns₂ storeClient w).1).1.state ∧
      (DeleteConfigMap StoreError.IsNotFound n₁ ns₁ storeClient w).2 =
        (DeleteConfigMap StoreError.IsNotFound n₁ ns₁ storeClient
          (DeleteSyncSet StoreError.IsNotFound n₂ ns₂ storeClient w).1).2 ∧
      (DeleteSyncSet StoreError.IsNotFound n₂ ns₂ storeClient
          (DeleteConfigMap StoreError.IsNotFound n₁ ns₁ storeClient w).1).2 =
        (DeleteSyncSet StoreError.IsNotFound n₂ ns₂ storeClient w).2) ∧
    ((DeleteSecret StoreError.IsNotFound n₂ ns₂ storeClient
          (DeleteConfigMap StoreError.IsNotFound n₁ ns₁ storeClient w).1).1.state =
        (DeleteConfigMap StoreError.IsNotFound n₁ ns₁ storeClient
          (DeleteSecret StoreError.IsNotFound n₂ ns₂ storeClient w).1).1.state ∧
      (DeleteConfigMap StoreError.IsNotFound n₁ ns₁ storeClient w).2 =
        (DeleteConfigMap StoreError.IsNotFound n₁ ns₁ storeClient
          (DeleteSecret StoreError.IsNotFound n₂ ns₂ storeClient w).1).2 ∧
      (DeleteSecret StoreError.IsNotFound n₂ ns₂ storeClient
          (DeleteConfigMap StoreError.IsNotFound n₁ ns₁ storeClient w).1).2 =
        (DeleteSecret StoreError.IsNotFound n₂ ns₂ storeClient w).2) ∧
    ((DeleteSecret StoreError.IsNotFound n₂ ns₂ storeClient
          (DeleteSyncSet StoreError.IsNotFound n₁ ns₁ storeClient w).1).1.state =
        (DeleteSyncSet StoreError.IsNotFound n₁ ns₁ storeClient
          (DeleteSecret StoreError.IsNotFound n₂ ns₂ storeClient w).1).1.state ∧
      (DeleteSyncSet StoreError.IsNotFound n₁ ns₁ storeClient w).2 =
        (DeleteSyncSet StoreError.IsNotFound n₁ ns₁ storeClient
          (DeleteSecret StoreError.IsNotFound n₂ ns₂ storeClient w).1).2 ∧
      (DeleteSecret StoreError.IsNotFound n₂ ns₂ storeClient
          (DeleteSyncSet StoreError.IsNotFound n₁ ns₁ storeClient w).1).2 =
        (DeleteSecret StoreError.IsNotFound n₂ ns₂ storeClient w).2) ∧
    (DeleteConfigMap StoreError.IsNotFound n₁ ns₁ storeClient w).1.state =
      w.state.filter (fun o => !(decide (o.Kind = ObjectKind.ConfigMap) &&
        decide (o.Namespace = ns₁) && decide (o.Name = n₁))) ∧
    (DeleteSyncSet StoreError.IsNotFound n₁ ns₁ storeClient w).1.state =
      w.state.filter (fun o => !(decide (o.Kind = ObjectKind.SyncSet) &&
        decide (o.Namespace = ns₁) && decide (o.Name = n₁))) ∧
    (DeleteSecret StoreError.IsNotFound n₁ ns₁ storeClient w).1.state =
      w.state.filter (fun o => !(decide (o.Kind = ObjectKind.Secret) &&
        decide (o.Namespace = ns₁) && decide (o.Name = n₁))) := by
  refine ⟨⟨?_, ?_, ?_⟩, ⟨?_, ?_, ?_⟩, ⟨?_, ?_, ?_⟩, ?_, ?_, ?_⟩
  · rw [(DeleteSyncSet_store _ _ _).2, (DeleteConfigMap_store _ _ _).2,
      (DeleteConfigMap_store _ _ _).2, (DeleteSyncSet_store _ _ _).2]
    exact Store_remove_comm _ _ _ _ _
  · rw [(DeleteConfigMap_store _ _ _).1, (DeleteConfigMap_store _ _ _).1]
  · rw [(DeleteSyncSet_store _ _ _).1, (DeleteSyncSet_store _ _ _).1]
  · rw [(DeleteSecret_store _ _ _).2, (DeleteConfigMap_store _ _ _).2,
      (DeleteConfigMap_store _ _ _).2, (DeleteSecret_store _ _ _).2]
    exact Store_remove_comm _ _ _ _ _
  · rw [(DeleteConfigMap_store _ _ _).1, (DeleteConfigMap_store _ _ _).1]
  · rw [(DeleteSecret_store _ _ _).1, (DeleteSecret_store _ _ _).1]
  · rw [(DeleteSecret_store _ _ _).2, (DeleteSyncSet_store _ _ _).2,
      (DeleteSyncSet_store _ _ _).2, (DeleteSecret_store _ _ _).2]
    exact Store_remove_comm _ _ _ _ _
  · rw [(DeleteSyncSet_store _ _ _).1, (DeleteSyncSet_store _ _ _).1]
  · rw [(DeleteSecret_store _ _ _).1, (DeleteSecret_store _ _ _).1]
  · rw [(DeleteConfigMap_store _ _ _).2]
    exact Store_remove_eq_filter _ _ _ _
  · rw [(DeleteSyncSet_store _ _ _).2]
    exact Store_remove_eq_filter _ _ _ _
  · rw [(DeleteSecret_store _ _ _).2]
    exact Store_remove_eq_filter _ _ _ _

/-! ### The calls a helper issues -/

/-- C16: the cleanup helpers never retry. For each of `DeleteConfigMap`, `DeleteSyncSet` and
`DeleteSecret` and every client, one call of the helper issues one `Get` for the requested
namespace and name, followed by one `Delete` exactly when that `Get` succeeded, on the object
that `Get` filled in, and nothing else. Over the faithful client every call issued concerns
the requested kind, namespace and name. -/
theorem C16_one_get_at_most_one_delete {σ ε : Type} (IsNotFound : ε → Bool)
    (name namespace_ : String) (client : Client σ ε) (w : World σ) (ws : World Store) :
    (DeleteConfigMap IsNotFound name namespace_ client w).1.calls =
      w.calls ++ Call.Get ⟨namespace_, name⟩ (Object.empty ObjectKind.ConfigMap) ::
        (match (client.Get w.state ⟨namespace_, name⟩
            (Object.empty ObjectKind.ConfigMap)).2.2 with
          | none => [Call.Delete (client.Get w.state ⟨namespace_, name⟩
              (Object.empty ObjectKind.ConfigMap)).2.1]
          | some _ => []) ∧
    (DeleteSyncSet IsNotFound name namespace_ client w).1.calls =
      w.calls ++ Call.Get ⟨namespace_, name⟩ (Object.empty ObjectKind.SyncSet) ::
        (match (client.Get w.state ⟨namespace_, name⟩
            (Object.empty ObjectKind.SyncSet)).2.2 with
          | none => [Call.Delete (client.Get w.state ⟨namespace_, name⟩
              (Object.empty ObjectKind.SyncSet)).2.1]
          | some _ => []) ∧
    (DeleteSecret IsNotFound name namespace_ client w).1.calls =
      w.calls ++ Call.Get ⟨namespace_, name⟩ (Object.empty ObjectKind.Secret) ::
        (match (client.Get w.state ⟨namespace_, name⟩
            (Object.empty ObjectKind.Secret)).2.2 with
          | none => [Call.Delete (client.Get w.state ⟨namespace_, name⟩
              (Object.empty ObjectKind.Secret)).2.1]
          | some _ => []) ∧
    (((DeleteConfigMap StoreError.IsNotFound name namespace_ storeClient ws).1.calls.drop
        ws.calls.length).all (fun c =>
          match c with
          | Call.Get key obj => decide (key = ⟨namespace_, name⟩ ∧ obj.Kind = ObjectKind.ConfigMap)
          | Call.Delete obj => obj.hasKey ObjectKind.ConfigMap ⟨namespace_, name⟩) = true) ∧
    (((DeleteSyncSet StoreError.IsNotFound name namespace_ storeClient ws).1.calls.drop
        ws.calls.length).all (fun c =>
          match c with
          | Call.Get key obj => decide (key = ⟨namespace_, name⟩ ∧ obj.Kind = ObjectKind.SyncSet)
          | Call.Delete obj => obj.hasKey ObjectKind.SyncSet ⟨namespace_, name⟩) = true) ∧
    (((DeleteSecret StoreError.IsNotFound name namespace_ storeClient ws).1.calls.drop
        ws.calls.length).all (fun c =>
          match c with
          | Call.Get key obj => decide (key = ⟨namespace_, name⟩ ∧ obj.Kind = ObjectKind.Secret)
          | Call.Delete obj => obj.hasKey ObjectKind.Secret ⟨namespace_, name⟩) = true) := by
  refine ⟨?_, ?_, ?_, ?_, ?_, ?_⟩
  · simp only [DeleteConfigMap, Client.get, Client.delete, World.Info]
    rcases hg : client.Get w.state ⟨namespace_, name⟩ (Object.empty ObjectKind.ConfigMap)
      with ⟨s₁, obj, _ | e⟩
    · rcases hd : client.Delete s₁ obj with ⟨s₂, _ | e⟩
      · simp [hd]
      · by_cases h : IsNotFound e <;> simp [hd, h]
    · by_cases h : IsNotFound e <;> simp [h]
  · simp only [DeleteSyncSet, Client.get, Client.delete, World.Info]
    rcases hg : client.Get w.state ⟨namespace_, name⟩ (Object.empty ObjectKind.SyncSet)
      with ⟨s₁, obj, _ | e⟩
    · rcases hd : client.Delete s₁ obj with ⟨s₂, _ | e⟩
      · simp [hd]
      · by_cases h : IsNotFound e <;> simp [hd, h]
    · by_cases h : IsNotFound e <;> simp [h]
  · simp only [DeleteSecret, Client.get, Client.delete, World.Info]
    rcases hg : client.Get w.state ⟨namespace_, name⟩ (Object.empty ObjectKind.Secret)
      with ⟨s₁, obj, _ | e⟩
    · rcases hd : client.Delete s₁ obj with ⟨s₂, _ | e⟩
      · simp [hd]
      · by_cases h : IsNotFound e <;> simp [hd, h]
    · by_cases h : IsNotFound e <;> simp [h]
  · simp only [DeleteConfigMap, Client.get, Client.delete, World.Info, storeClient, Object.empty]
    cases h : Store.lookup ws.state ObjectKind.ConfigMap ⟨namespace_, name⟩ with
    | none => simp [StoreError.IsNotFound]
    | some o =>
      obtain ⟨h1, h2, h3⟩ := Store_lookup_key _ _ _ _ h
      simp only at h2 h3
      simp [h1, h2, h3, h, Object.hasKey]
  · simp only [DeleteSyncSet, Client.get, Client.delete, World.Info, storeClient, Object.empty]
    cases h : Store.lookup ws.state ObjectKind.SyncSet ⟨namespace_, name⟩ with
    | none => simp [StoreError.IsNotFound]
    | some o =>
      obtain ⟨h1, h2, h3⟩ := Store_lookup_key _ _ _ _ h
      simp only at h2 h3
      simp [h1, h2, h3, h, Object.hasKey]
  · simp only [DeleteSecret, Client.get, Client.delete, World.Info, storeClient, Object.empty]
    cases h : Store.lookup ws.state ObjectKind.Secret ⟨namespace_, name⟩ with
    | none => simp [StoreError.IsNotFound]
    | some o =>
      obtain ⟨h1, h2, h3⟩ := Store_lookup_key _ _ _ _ h
      simp only at h2 h3
      simp [h1, h2, h3, h, Object.hasKey]

/-! ## The heartbeat runnable -/

/-- C12, as stated, fails: when reading the credential secret fails (here every call of the
client fails with an internal error), the runnable returns that error to the manager. -/
theorem C12_heartbeat_counterexample :
    (heartbeatRunnable ⟨"pagerduty-operator", "pagerduty-api-key", "PAGERDUTY_API_KEY"⟩
      (failingClient (StoreError.Internal "connection refused"))
      (fun (key : String) (samples : List String) => samples ++ [key])
      ⟨World.init [], [], []⟩).2 = some (StoreError.Internal "connection refused") := by
  decide

/-- C12, amended: the runnable returns to the manager exactly the error of reading the
credential secret. When `Get` fails the failure is logged with `setupLog.Error`, the metrics
are left alone and the error of `Get` is returned; when `Get` succeeds nothing is logged,
the key read from the secret is handed to `UpdateAPIMetrics` and nil is returned. -/
theorem C12_heartbeat_returns_get_error {σ ε μ : Type} (cfg : OperatorConfig)
    (client : Client σ ε) (UpdateAPIMetrics : String → μ → μ) (h : HeartbeatWorld σ ε μ) :
    (heartbeatRunnable cfg client UpdateAPIMetrics h).2 =
      (client.Get h.client.state ⟨cfg.OperatorNamespace, cfg.PagerDutyAPISecretName⟩
        (Object.empty ObjectKind.Secret)).2.2 ∧
    (heartbeatRunnable cfg client UpdateAPIMetrics h).1.errors =
      h.errors ++
        (match (client.Get h.client.state ⟨cfg.OperatorNamespace, cfg.PagerDutyAPISecretName⟩
            (Object.empty ObjectKind.Secret)).2.2 with
          | some err => [(err, "Failed to get secret")]
          | none => []) ∧
    (heartbeatRunnable cfg client UpdateAPIMetrics h).1.metrics =
      (match (client.Get h.client.state ⟨cfg.OperatorNamespace, cfg.PagerDutyAPISecretName⟩
          (Object.empty ObjectKind.Secret)).2.2 with
        | some _ => h.metrics
        | none =>
          UpdateAPIMetrics
            (GoMap.index
              (some (client.Get h.client.state
                ⟨cfg.OperatorNamespace, cfg.PagerDutyAPISecretName⟩
                (Object.empty ObjectKind.Secret)).2.1.Data)
              cfg.PagerDutyAPISecretKey).1
            h.metrics) := by
  simp only [heartbeatRunnable, Client.get]
  rcases hg : client.Get h.client.state ⟨cfg.OperatorNamespace, cfg.PagerDutyAPISecretName⟩
      (Object.empty ObjectKind.Secret) with ⟨s₁, obj, _ | e⟩
  · simp
  · simp

/-! ## Cluster identity resolver: what the identifier depends on -/

/-- C13, as stated, fails: with restricted mode off, two deployments in the same namespace
with different declared cluster names get different identifiers. -/
theorem C13_namespace_alone_counterexample :
    (ClusterDeployment.mk ⟨"cd", "uhc-production-xyz123", none, []⟩ ⟨"cluster-a"⟩).Namespace =
      (ClusterDeployment.mk ⟨"cd", "uhc-production-xyz123", none, []⟩ ⟨"cluster-b"⟩).Namespace ∧
    GetClusterID false (ClusterDeployment.mk ⟨"cd", "uhc-production-xyz123", none, []⟩
        ⟨"cluster-a"⟩) ≠
      GetClusterID false (ClusterDeployment.mk ⟨"cd", "uhc-production-xyz123", none, []⟩
        ⟨"cluster-b"⟩) := by
  decide

/-- C13, amended: `GetClusterID` is a function of the mode flag, the namespace and the
declared cluster name alone. With restricted mode on, two deployments with equal namespaces
get the same identifier; with restricted mode off, two deployments with equal declared
cluster names get the same identifier; labels, names and other fields play no part. -/
theorem C13_identifier_depends_on (cd₁ cd₂ : ClusterDeployment) :
    (cd₁.Namespace = cd₂.Namespace → GetClusterID true cd₁ = GetClusterID true cd₂) ∧
    (cd₁.Spec.ClusterName = cd₂.Spec.ClusterName →
      GetClusterID false cd₁ = GetClusterID false cd₂) := by
  constructor
  · intro h
    simp only [GetClusterID, if_true, h]
  · intro h
    simp [GetClusterID, h]

/-- C13, amended, at two deployments that differ in name, labels and finalizers. -/
theorem C13_identifier_depends_on_witness :
    GetClusterID true
        (ClusterDeployment.mk ⟨"cd-1", "uhc-production-xyz123", none, []⟩ ⟨"cluster-a"⟩) =
      GetClusterID true
        (ClusterDeployment.mk ⟨"cd-2", "uhc-production-xyz123", some [("k", "v")], ["f"]⟩
          ⟨"cluster-b"⟩) ∧
    GetClusterID false
        (ClusterDeployment.mk ⟨"cd-1", "uhc-production-xyz123", none, []⟩ ⟨"cluster-a"⟩) =
      GetClusterID false
        (ClusterDeployment.mk ⟨"cd-2", "uhc-staging-abc", some [("k", "v")], ["f"]⟩
          ⟨"cluster-a"⟩) :=
  ⟨(C13_identifier_depends_on
      (ClusterDeployment.mk ⟨"cd-1", "uhc-production-xyz123", none, []⟩ ⟨"cluster-a"⟩)
      (ClusterDeployment.mk ⟨"cd-2", "uhc-production-xyz123", some [("k", "v")], ["f"]⟩
        ⟨"cluster-b"⟩)).1 (by decide),
    (C13_identifier_depends_on
      (ClusterDeployment.mk ⟨"cd-1", "uhc-production-xyz123", none, []⟩ ⟨"cluster-a"⟩)
      (ClusterDeployment.mk ⟨"cd-2", "uhc-staging-abc", some [("k", "v")], ["f"]⟩
        ⟨"cluster-a"⟩)).2 (by decide)⟩

/-- C19: `GetClusterID` never indexes out of range. For every namespace, splitting on `-`
gives at least one segment and, in restricted mode, the result is defined; the empty
namespace and every namespace ending in `-` give the empty identifier. -/
theorem C19_index_in_range (cd : ClusterDeployment) (p : String) :
    1 ≤ (strings.Split cd.Namespace '-').length ∧
    (GetClusterID true cd).isSome = true ∧
    GetClusterID true { cd with Namespace := "" } = some "" ∧
    GetClusterID true { cd with Namespace := p ++ "-" } = some "" := by
  refine ⟨?_, ?_, ?_, ?_⟩
  · have hne : strings.Split cd.Namespace '-' ≠ [] := by
      simp [strings.Split, splitChars_ne_nil]
    exact List.length_pos.mpr hne
  · rw [GetClusterID_fedramp]
    have hne : strings.Split cd.Namespace '-' ≠ [] := by
      simp [strings.Split, splitChars_ne_nil]
    cases hs : strings.Split cd.Namespace '-' with
    | nil => exact absurd hs hne
    | cons a l => simp [List.getLast?_cons_cons, List.getLast?_isSome]
  · rw [GetClusterID_fedramp]
    rfl
  · rw [GetClusterID_fedramp]
    have hd : (p ++ "-").data = p.data ++ '-' :: [] := by
      simp [String.data_append]
    simp only [strings.Split, hd, splitChars_append, splitChars, List.map_append, List.map_cons,
      List.map_nil]
    simp

/-! ## Slice helper -/

/-- C14: `Contains(s, str)` is true if and only if some element of `s` equals `str`, for every
slice (the nil or empty one included, where it is false) and every string. -/
theorem C14_contains_iff (s : List String) (str : String) :
    (Contains s str = true ↔ ∃ v, v ∈ s ∧ v = str) ∧ Contains [] str = false := by
  refine ⟨?_, rfl⟩
  induction s with
  | nil => simp [Contains]
  | cons v s ih =>
    simp only [Contains, List.mem_cons]
    by_cases h : v = str
    · simp [h]
    · have hb : (v == str) = false := by simpa using h
      simp only [hb, Bool.false_eq_true, if_false, ih]
      constructor
      · rintro ⟨x, hx, rfl⟩
        exact ⟨x, Or.inr hx, rfl⟩
      · rintro ⟨x, hx | hx, rfl⟩
        · exact absurd hx.symm h
        · exact ⟨x, hx, rfl⟩

/-! ## Finalizer utility: frame and canonical form -/

/-- C17: `AddFinalizer` and `DeleteFinalizer` change the membership of the given marker only:
for every other string, `HasFinalizer` answers after the call what it answered before. -/
theorem C17_other_markers_kept (object : ObjectMeta) (m other : String) (hne : other ≠ m) :
    HasFinalizer (AddFinalizer object m) other = HasFinalizer object other ∧
    HasFinalizer (DeleteFinalizer object m) other = HasFinalizer object other := by
  constructor
  · rw [Bool.eq_iff_iff, HasFinalizer_iff, HasFinalizer_iff, mem_AddFinalizer]
    constructor
    · rintro (h | h)
      · exact absurd h hne
      · exact h
    · exact Or.inr
  · rw [Bool.eq_iff_iff, HasFinalizer_iff, HasFinalizer_iff, mem_DeleteFinalizer]
    exact ⟨fun h => h.2, fun h => ⟨hne, h⟩⟩

/-- C17 at an unsorted list with a duplicate: marker `b`, other string `c` (present). -/
theorem C17_other_markers_kept_witness :
    "c" ≠ "b" ∧
      HasFinalizer (AddFinalizer (ObjectMeta.mk "pdi" "ns" none ["c", "a", "c"]) "b") "c" =
        HasFinalizer (ObjectMeta.mk "pdi" "ns" none ["c", "a", "c"]) "c" ∧
      HasFinalizer (DeleteFinalizer (ObjectMeta.mk "pdi" "ns" none ["c", "a", "c"]) "b") "c" =
        HasFinalizer (ObjectMeta.mk "pdi" "ns" none ["c", "a", "c"]) "c" :=
  ⟨by decide,
    C17_other_markers_kept (ObjectMeta.mk "pdi" "ns" none ["c", "a", "c"]) "b" "c" (by decide)⟩

/-- C18: after `AddFinalizer(object, m)` or `DeleteFinalizer(object, m)`, whatever the list
before, the stored list is in strictly ascending order and so free of duplicates. The list
is rewritten even when the set stays the same: from `["b", "a", "b"]`, adding `a` and
deleting `c` both store `["a", "b"]`. -/
theorem C18_stored_list_canonical (object : ObjectMeta) (m : String) :
    ((AddFinalizer object m).GetFinalizers.Sorted stringLT ∧
      (AddFinalizer object m).GetFinalizers.Nodup) ∧
    ((DeleteFinalizer object m).GetFinalizers.Sorted stringLT ∧
      (DeleteFinalizer object m).GetFinalizers.Nodup) ∧
    (AddFinalizer (ObjectMeta.mk "pdi" "ns" none ["b", "a", "b"]) "a").GetFinalizers
      = ["a", "b"] ∧
    (DeleteFinalizer (ObjectMeta.mk "pdi" "ns" none ["b", "a", "b"]) "c").GetFinalizers
      = ["a", "b"] :=
  ⟨⟨AddFinalizer_sorted object m, (AddFinalizer_sorted object m).nodup⟩,
    ⟨DeleteFinalizer_sorted object m, (DeleteFinalizer_sorted object m).nodup⟩,
    by decide, by decide⟩

/-! ## The creation path of the reconciler -/

theorem persistFinalizer_records (finalizer : String) (st : ReconcileState)
    (o : AttemptOutcome) : (persistFinalizer finalizer st o).1.records = st.records := by
  unfold persistFinalizer
  split <;> rfl

/-- The records after one attempt: those before, with the identifier of the deployment added
when it was not among them and the creation succeeded. -/
theorem reconcileCreate_records (isFedramp : Bool) (cd : ClusterDeployment)
    (finalizer : String) (st : ReconcileState) (o : AttemptOutcome) :
    (reconcileCreate isFedramp cd finalizer st o).1.records = st.records ∨
      ∃ clusterID, GetClusterID isFedramp cd = some clusterID ∧ clusterID ∉ st.records ∧
        o.createSucceeds = true ∧
        (reconcileCreate isFedramp cd finalizer st o).1.records = st.records ++ [clusterID] := by
  unfold reconcileCreate
  cases hid : GetClusterID isFedramp cd with
  | none => exact Or.inl rfl
  | some clusterID =>
    by_cases hmem : clusterID ∈ st.records
    · left
      simp [hmem, persistFinalizer_records]
    · by_cases hc : o.createSucceeds = true
      · right
        refine ⟨clusterID, rfl, hmem, hc, ?_⟩
        simp [hmem, hc, persistFinalizer_records]
      · left
        simp [hmem, hc]

theorem reconcileCreate_nodup (isFedramp : Bool) (cd : ClusterDeployment)
    (finalizer : String) (st : ReconcileState) (o : AttemptOutcome) (h : st.records.Nodup) :
    (reconcileCreate isFedramp cd finalizer st o).1.records.Nodup := by
  rcases reconcileCreate_records isFedramp cd finalizer st o with e | ⟨c, _, hc, _, e⟩
  · rw [e]; exact h
  · rw [e, List.nodup_append]
    refine ⟨h, List.nodup_singleton c, ?_⟩
    intro a ha hb
    rw [List.mem_singleton] at hb
    exact hc (hb ▸ ha)

theorem reconcileAttempts_nodup (isFedramp : Bool) (cd : ClusterDeployment)
    (finalizer : String) (os : List AttemptOutcome) :
    ∀ st : ReconcileState, st.records.Nodup →
      (reconcileAttempts isFedramp cd finalizer st os).records.Nodup := by
  induction os with
  | nil => intro st h; exact h
  | cons o os ih =>
    intro st h
    exact ih _ (reconcileCreate_nodup isFedramp cd finalizer st o h)

/-- Once the record of the deployment exists, no attempt creates another. -/
theorem reconcileCreate_existing (isFedramp : Bool) (cd : ClusterDeployment)
    (finalizer : String) (st : ReconcileState) (o : AttemptOutcome) (clusterID : String)
    (hid : GetClusterID isFedramp cd = some clusterID) (hmem : clusterID ∈ st.records) :
    (reconcileCreate isFedramp cd finalizer st o).1.records = st.records := by
  rcases reconcileCreate_records isFedramp cd finalizer st o with e | ⟨c, hc, hn, _, _⟩
  · exact e
  · rw [hid] at hc
    cases hc
    exact absurd hmem hn

theorem reconcileAttempts_existing (isFedramp : Bool) (cd : ClusterDeployment)
    (finalizer : String) (clusterID : String)
    (hid : GetClusterID isFedramp cd = some clusterID) (os : List AttemptOutcome) :
    ∀ st : ReconcileState, clusterID ∈ st.records →
      (reconcileAttempts isFedramp cd finalizer st os).records = st.records := by
  induction os with
  | nil => intro st _; rfl
  | cons o os ih =>
    intro st h
    have e := reconcileCreate_existing isFedramp cd finalizer st o clusterID hid h
    simp only [reconcileAttempts]
    rw [ih _ (e ▸ h), e]

/-- The identifier is always defined, in either mode. -/
theorem GetClusterID_defined (isFedramp : Bool) (cd : ClusterDeployment) :
    ∃ clusterID, GetClusterID isFedramp cd = some clusterID := by
  cases isFedramp with
  | false => exact ⟨cd.Spec.ClusterName, rfl⟩
  | true =>
    rw [GetClusterID_fedramp]
    have hne : strings.Split cd.Namespace '-' ≠ [] := by
      simp [strings.Split, splitChars_ne_nil]
    exact ⟨(strings.Split cd.Namespace '-').getLast hne, List.getLast?_eq_getLast _ hne⟩

/-- C15: retries never double-provision, on the creation path modelled from the
specification. Starting from records with at most one per cluster identifier, every sequence
of attempts on one resource ends with at most one record per identifier. An attempt whose
creation call succeeds and whose finalizer write fails is requeued with the persisted
resource unchanged and the record of the deployment (keyed by `GetClusterID`) in place; every
later sequence of attempts finds that record and creates nothing. -/
theorem C15_no_double_provision (isFedramp : Bool) (cd : ClusterDeployment)
    (finalizer : String) (st : ReconcileState) (os : List AttemptOutcome)
    (h : ∀ id, st.records.count id ≤ 1) :
    (∀ id, (reconcileAttempts isFedramp cd finalizer st os).records.count id ≤ 1) ∧
    (reconcileCreate isFedramp cd finalizer st ⟨true, false⟩).2 = false ∧
    (reconcileCreate isFedramp cd finalizer st ⟨true, false⟩).1.resource = st.resource ∧
    (∃ clusterID, GetClusterID isFedramp cd = some clusterID ∧
      (reconcileCreate isFedramp cd finalizer st ⟨true, false⟩).1.records.count clusterID = 1) ∧
    (reconcileAttempts isFedramp cd finalizer
        (reconcileCreate isFedramp cd finalizer st ⟨true, false⟩).1 os).records =
      (reconcileCreate isFedramp cd finalizer st ⟨true, false⟩).1.records := by
  have hnd : st.records.Nodup := List.nodup_iff_count_le_one.mpr h
  obtain ⟨clusterID, hid⟩ := GetClusterID_defined isFedramp cd
  have hmem : clusterID ∈ (reconcileCreate isFedramp cd finalizer st ⟨true, false⟩).1.records := by
    simp only [reconcileCreate, hid]
    by_cases hm : clusterID ∈ st.records
    · simp [hm, persistFinalizer_records]
    · simp [hm, persistFinalizer_records]
  refine ⟨?_, ?_, ?_, ⟨clusterID, hid, ?_⟩, ?_⟩
  · exact fun id => List.nodup_iff_count_le_one.mp
      (reconcileAttempts_nodup isFedramp cd finalizer os st hnd) id
  · simp only [reconcileCreate, hid]
    by_cases hm : clusterID ∈ st.records <;> simp [hm, persistFinalizer]
  · simp only [reconcileCreate, hid]
    by_cases hm : clusterID ∈ st.records <;> simp [hm, persistFinalizer]
  · exact List.count_eq_one_of_mem
      (reconcileCreate_nodup isFedramp cd finalizer st ⟨true, false⟩ hnd) hmem
  · exact reconcileAttempts_existing isFedramp cd finalizer clusterID hid os _ hmem

/-- C15 from no records at all, in standard mode, for the deployment `cluster-a`: a failed
creation, then a creation whose finalizer write fails, then two more attempts. -/
theorem C15_no_double_provision_witness :
    (∀ id, (ReconcileState.mk [] (ObjectMeta.mk "pdi" "ns" none [])).records.count id ≤ 1) ∧
    ((∀ id, (reconcileAttempts false (ClusterDeployment.mk ⟨"cd", "ns", none, []⟩ ⟨"cluster-a"⟩)
        "pd.managed.openshift.io/pagerduty" (ReconcileState.mk [] (ObjectMeta.mk "pdi" "ns" none []))
        [⟨false, true⟩, ⟨true, false⟩, ⟨true, false⟩, ⟨true, true⟩]).records.count id ≤ 1) ∧
    (reconcileCreate false (ClusterDeployment.mk ⟨"cd", "ns", none, []⟩ ⟨"cluster-a"⟩)
        "pd.managed.openshift.io/pagerduty" (ReconcileState.mk [] (ObjectMeta.mk "pdi" "ns" none []))
        ⟨true, false⟩).2 = false ∧
    (reconcileCreate false (ClusterDeployment.mk ⟨"cd", "ns", none, []⟩ ⟨"cluster-a"⟩)
        "pd.managed.openshift.io/pagerduty" (ReconcileState.mk [] (ObjectMeta.mk "pdi" "ns" none []))
        ⟨true, false⟩).1.resource =
      (ReconcileState.mk [] (ObjectMeta.mk "pdi" "ns" none [])).resource ∧
    (∃ clusterID,
      GetClusterID false (ClusterDeployment.mk ⟨"cd", "ns", none, []⟩ ⟨"cluster-a"⟩)
        = some clusterID ∧
      (reconcileCreate false (ClusterDeployment.mk ⟨"cd", "ns", none, []⟩ ⟨"cluster-a"⟩)
        "pd.managed.openshift.io/pagerduty" (ReconcileState.mk [] (ObjectMeta.mk "pdi" "ns" none []))
        ⟨true, false⟩).1.records.count clusterID = 1) ∧
    (reconcileAttempts false (ClusterDeployment.mk ⟨"cd", "ns", none, []⟩ ⟨"cluster-a"⟩)
        "pd.managed.openshift.io/pagerduty"
        (reconcileCreate false (ClusterDeployment.mk ⟨"cd", "ns", none, []⟩ ⟨"cluster-a"⟩)
          "pd.managed.openshift.io/pagerduty"
          (ReconcileState.mk [] (ObjectMeta.mk "pdi" "ns" none [])) ⟨true, false⟩).1
        [⟨false, true⟩, ⟨true, false⟩, ⟨true, false⟩, ⟨true, true⟩]).records =
      (reconcileCreate false (ClusterDeployment.mk ⟨"cd", "ns", none, []⟩ ⟨"cluster-a"⟩)
        "pd.managed.openshift.io/pagerduty" (ReconcileState.mk [] (ObjectMeta.mk "pdi" "ns" none []))
        ⟨true, false⟩).1.records) :=
  ⟨fun _ => Nat.zero_le 1,
    C15_no_double_provision false (ClusterDeployment.mk ⟨"cd", "ns", none, []⟩ ⟨"cluster-a"⟩)
      "pd.managed.openshift.io/pagerduty" (ReconcileState.mk [] (ObjectMeta.mk "pdi" "ns" none []))
      [⟨false, true⟩, ⟨true, false⟩, ⟨true, false⟩, ⟨true, true⟩] (fun _ => Nat.zero_le 1)⟩
